import Mathlib

/-!
Verification of the indoor positioning and navigation engine (konzepapp).

Each component of the source is shallowly embedded with the number type its
operations need: exact rationals where the source only adds, multiplies,
divides and compares JavaScript numbers (heading arithmetic, the 2D Kalman
filter, the pedometer step protocol), and real numbers where the source calls
Math.sqrt, Math.exp or Math.atan2 (geometry, snap-to-graph, the Wi-Fi fix,
turn-by-turn bearings, shortest paths).

The JavaScript remainder operator is remainder of truncated division, so it is
modelled explicitly rather than with the mathematical modulus.
-/

namespace Konzep

/-- Truncation toward zero, as JavaScript division underlying the percent
operator truncates. -/
def jsTrunc (q : ℚ) : ℤ := if 0 ≤ q then ⌊q⌋ else ⌈q⌉

/-- The JavaScript remainder operator on numbers: x % y takes the sign of x. -/
def jsMod (x y : ℚ) : ℚ := x - y * jsTrunc (x / y)

/-! ### pdrMath.ts -/

namespace PdrMath

/-- Source: pdrMath.ts, clamp. -/
def clamp (n lo hi : ℚ) : ℚ := max lo (min hi n)

/-- Source: pdrMath.ts, wrapHeading. -/
def wrapHeading (deg : ℚ) : ℚ :=
  let h := jsMod deg 360
  if h < 0 then h + 360 else h

/-- Source: pdrMath.ts, headingDiff. -/
def headingDiff (a b : ℚ) : ℚ := jsMod (a - b + 540) 360 - 180

end PdrMath

lemma jsMod_nonneg_bounds (x y : ℚ) (hx : 0 ≤ x) (hy : 0 < y) :
    0 ≤ jsMod x y ∧ jsMod x y < y := by
  have hdiv : (0 : ℚ) ≤ x / y := div_nonneg hx (le_of_lt hy)
  have htr : jsTrunc (x / y) = ⌊x / y⌋ := by
    simp [jsTrunc, hdiv]
  constructor
  · have hfl : (⌊x / y⌋ : ℚ) ≤ x / y := Int.floor_le _
    have := (div_le_div_iff_of_pos_right hy).mpr hfl
    rw [jsMod, htr]
    have : y * (⌊x / y⌋ : ℚ) ≤ x := by
      have := mul_le_mul_of_nonneg_left hfl (le_of_lt hy)
      calc y * (⌊x / y⌋ : ℚ) ≤ y * (x / y) := this
        _ = x := by field_simp
    linarith
  · have hfl : x / y < (⌊x / y⌋ : ℚ) + 1 := Int.lt_floor_add_one _
    rw [jsMod, htr]
    have : x < y * ((⌊x / y⌋ : ℚ) + 1) := by
      have := mul_lt_mul_of_pos_left hfl hy
      calc x = y * (x / y) := by field_simp
        _ < y * ((⌊x / y⌋ : ℚ) + 1) := this
    nlinarith

/-- C2 counterexample: at the wrapped headings a = 180, b = 0 the code yields
headingDiff 180 0 = -180, which is not in the half-open interval (-180, 180],
refuting the claimed interval at a concrete input. -/
theorem headingDiff_not_in_Ioc :
    PdrMath.headingDiff 180 0 = -180 ∧
      ¬(-180 < PdrMath.headingDiff 180 0 ∧ PdrMath.headingDiff 180 0 ≤ 180) := by
  have h : PdrMath.headingDiff 180 0 = -180 := by
    norm_num [PdrMath.headingDiff, jsMod, jsTrunc]
  exact ⟨h, by rw [h]; norm_num⟩

/-- C2 (amended): whenever a - b + 540 is nonnegative (in particular for
headings wrapped into [0, 360)), headingDiff a b lies in the half-open
interval [-180, 180), and headingDiff a a = 0 for every a. -/
theorem headingDiff_range (a b : ℚ) (h : 0 ≤ a - b + 540) :
    (-180 ≤ PdrMath.headingDiff a b ∧ PdrMath.headingDiff a b < 180) ∧
      PdrMath.headingDiff a a = 0 := by
  refine ⟨?_, ?_⟩
  · have := jsMod_nonneg_bounds (a - b + 540) 360 h (by norm_num)
    constructor
    · have := this.1
      simp only [PdrMath.headingDiff]
      linarith
    · have := this.2
      simp only [PdrMath.headingDiff]
      linarith
  · have : a - a + 540 = 540 := by ring
    simp only [PdrMath.headingDiff, this]
    norm_num [jsMod, jsTrunc]

/-- C2 witness: the amended range theorem applied at the concrete wrapped
headings a = 270 and b = 0. -/
theorem headingDiff_range_witness :
    (0 ≤ (270 : ℚ) - 0 + 540) ∧
      ((-180 ≤ PdrMath.headingDiff 270 0 ∧ PdrMath.headingDiff 270 0 < 180) ∧
        PdrMath.headingDiff 270 270 = 0) :=
  ⟨by norm_num, headingDiff_range 270 0 (by norm_num)⟩

/-! ### fusion/kalman2d.ts

All operations of the 2D Kalman filter are additions, multiplications,
divisions, and max with constants, so the filter is embedded over the exact
rationals.  The innovation covariance, its determinant and the four gain
entries are named top-level definitions so that theorems can speak about them;
updateKalman2D combines them exactly as the source does. -/

/-- Source: kalman2d.ts, Vec2. -/
structure Vec2Q where
  x : ℚ
  y : ℚ

/-- Source: kalman2d.ts, Kalman2DState.  The covariance matrix
[[p00, p01], [p10, p11]] is stored with p10 == p01. -/
structure Kalman2DState where
  x : ℚ
  y : ℚ
  p00 : ℚ
  p01 : ℚ
  p11 : ℚ
deriving DecidableEq

/-- Source: kalman2d.ts, createKalman2D (the source default for
posSigmaMeters is 1.5; callers pass it explicitly here). -/
def createKalman2D (start : Vec2Q) (posSigmaMeters : ℚ) : Kalman2DState :=
  let v := max (1 / 1000000) (posSigmaMeters * posSigmaMeters)
  { x := start.x, y := start.y, p00 := v, p01 := 0, p11 := v }

/-- Source: kalman2d.ts, predictKalman2D (state passing instead of mutation). -/
def predictKalman2D (s : Kalman2DState) (delta : Vec2Q) (processSigmaMeters : ℚ) :
    Kalman2DState :=
  let q := max (1 / 1000000) (processSigmaMeters * processSigmaMeters)
  { s with x := s.x + delta.x, y := s.y + delta.y, p00 := s.p00 + q, p11 := s.p11 + q }

/-- Source: kalman2d.ts, updateKalman2D, r = Math.max(1e-6, measSigma^2). -/
def kalmanR (measSigmaMeters : ℚ) : ℚ := max (1 / 1000000) (measSigmaMeters * measSigmaMeters)

/-- Source: kalman2d.ts, updateKalman2D, det of S = P + r I:
det = s00 * s11 - s01 * s01 with s00 = p00 + r, s01 = p01, s11 = p11 + r. -/
def kalmanDetS (s : Kalman2DState) (r : ℚ) : ℚ :=
  (s.p00 + r) * (s.p11 + r) - s.p01 * s.p01

/-- Source: kalman2d.ts, updateKalman2D, gain k00 = p00 * inv00 + p01 * inv01
with inv00 = s11 / det and inv01 = -s01 / det. -/
def kalmanK00 (s : Kalman2DState) (r : ℚ) : ℚ :=
  s.p00 * ((s.p11 + r) / kalmanDetS s r) + s.p01 * (-s.p01 / kalmanDetS s r)

/-- Source: kalman2d.ts, updateKalman2D, gain k01 = p00 * inv01 + p01 * inv11. -/
def kalmanK01 (s : Kalman2DState) (r : ℚ) : ℚ :=
  s.p00 * (-s.p01 / kalmanDetS s r) + s.p01 * ((s.p00 + r) / kalmanDetS s r)

/-- Source: kalman2d.ts, updateKalman2D, gain k10 = p01 * inv00 + p11 * inv01. -/
def kalmanK10 (s : Kalman2DState) (r : ℚ) : ℚ :=
  s.p01 * ((s.p11 + r) / kalmanDetS s r) + s.p11 * (-s.p01 / kalmanDetS s r)

/-- Source: kalman2d.ts, updateKalman2D, gain k11 = p01 * inv01 + p11 * inv11. -/
def kalmanK11 (s : Kalman2DState) (r : ℚ) : ℚ :=
  s.p01 * (-s.p01 / kalmanDetS s r) + s.p11 * ((s.p00 + r) / kalmanDetS s r)

/-- Source: kalman2d.ts, updateKalman2D.  The update is skipped when
det(S) <= 1e-12; otherwise state and covariance are updated with
P := (I - K) P. -/
def updateKalman2D (s : Kalman2DState) (z : Vec2Q) (measSigmaMeters : ℚ) :
    Kalman2DState :=
  if kalmanDetS s (kalmanR measSigmaMeters) ≤ 1 / 1000000000000 then s
  else
    { x := s.x + (kalmanK00 s (kalmanR measSigmaMeters) * (z.x - s.x) +
        kalmanK01 s (kalmanR measSigmaMeters) * (z.y - s.y)),
      y := s.y + (kalmanK10 s (kalmanR measSigmaMeters) * (z.x - s.x) +
        kalmanK11 s (kalmanR measSigmaMeters) * (z.y - s.y)),
      p00 := (1 - kalmanK00 s (kalmanR measSigmaMeters)) * s.p00 -
        kalmanK01 s (kalmanR measSigmaMeters) * s.p01,
      p01 := (1 - kalmanK00 s (kalmanR measSigmaMeters)) * s.p01 -
        kalmanK01 s (kalmanR measSigmaMeters) * s.p11,
      p11 := -kalmanK10 s (kalmanR measSigmaMeters) * s.p01 +
        (1 - kalmanK11 s (kalmanR measSigmaMeters)) * s.p11 }

/-- The (1,0) entry of (I - K) P for the stored symmetric P (p10 = p01).  The
source stores only p01 (comment: p10 == p01); this is the entry it omits,
used to express the symmetry of the updated covariance. -/
def kalmanUpdateP10 (s : Kalman2DState) (measSigmaMeters : ℚ) : ℚ :=
  if kalmanDetS s (kalmanR measSigmaMeters) ≤ 1 / 1000000000000 then s.p01
  else -kalmanK10 s (kalmanR measSigmaMeters) * s.p00 +
    (1 - kalmanK11 s (kalmanR measSigmaMeters)) * s.p01

lemma kalmanR_pos (σ : ℚ) : 0 < kalmanR σ :=
  lt_of_lt_of_le (by norm_num) (le_max_left _ _)

/-- C6: for every Kalman2D state with positive semidefinite covariance and
every measurement sigma, the updated covariance is symmetric within 1e-9
(its two off-diagonal entries in fact agree exactly), its trace does not
increase, and whenever det(S) <= 1e-12 the update leaves the state
unchanged. -/
theorem updateKalman2D_symm_trace (s : Kalman2DState) (z : Vec2Q) (σ : ℚ)
    (h00 : 0 ≤ s.p00) (h11 : 0 ≤ s.p11) (hpsd : s.p01 * s.p01 ≤ s.p00 * s.p11) :
    |(updateKalman2D s z σ).p01 - kalmanUpdateP10 s σ| ≤ 1 / 1000000000 ∧
      (updateKalman2D s z σ).p00 + (updateKalman2D s z σ).p11 ≤ s.p00 + s.p11 ∧
      (kalmanDetS s (kalmanR σ) ≤ 1 / 1000000000000 → updateKalman2D s z σ = s) := by
  have hr : 0 < kalmanR σ := kalmanR_pos σ
  by_cases hskip : kalmanDetS s (kalmanR σ) ≤ 1 / 1000000000000
  · have hupd : updateKalman2D s z σ = s := by
      rw [updateKalman2D, if_pos hskip]
    have hp10 : kalmanUpdateP10 s σ = s.p01 := by
      rw [kalmanUpdateP10, if_pos hskip]
    rw [hupd, hp10]
    refine ⟨by simp, by simp, fun _ => rfl⟩
  · have hdetpos : 0 < kalmanDetS s (kalmanR σ) :=
      lt_trans (by norm_num) (lt_of_not_le hskip)
    have hdetne : kalmanDetS s (kalmanR σ) ≠ 0 := ne_of_gt hdetpos
    have hupd :
        updateKalman2D s z σ =
          { x := s.x + (kalmanK00 s (kalmanR σ) * (z.x - s.x) +
              kalmanK01 s (kalmanR σ) * (z.y - s.y)),
            y := s.y + (kalmanK10 s (kalmanR σ) * (z.x - s.x) +
              kalmanK11 s (kalmanR σ) * (z.y - s.y)),
            p00 := (1 - kalmanK00 s (kalmanR σ)) * s.p00 -
              kalmanK01 s (kalmanR σ) * s.p01,
            p01 := (1 - kalmanK00 s (kalmanR σ)) * s.p01 -
              kalmanK01 s (kalmanR σ) * s.p11,
            p11 := -kalmanK10 s (kalmanR σ) * s.p01 +
              (1 - kalmanK11 s (kalmanR σ)) * s.p11 } := by
      rw [updateKalman2D, if_neg hskip]
    have hp10 :
        kalmanUpdateP10 s σ = -kalmanK10 s (kalmanR σ) * s.p00 +
          (1 - kalmanK11 s (kalmanR σ)) * s.p01 := by
      rw [kalmanUpdateP10, if_neg hskip]
    refine ⟨?_, ?_, fun h => absurd h hskip⟩
    · rw [hupd, hp10]
      have hsym :
          (1 - kalmanK00 s (kalmanR σ)) * s.p01 - kalmanK01 s (kalmanR σ) * s.p11 =
            -kalmanK10 s (kalmanR σ) * s.p00 + (1 - kalmanK11 s (kalmanR σ)) * s.p01 := by
        simp only [kalmanK00, kalmanK01, kalmanK10, kalmanK11]
        field_simp
        ring
      rw [hsym]
      simp
    · rw [hupd]
      have key :
          kalmanK00 s (kalmanR σ) * s.p00 + kalmanK01 s (kalmanR σ) * s.p01 +
              (kalmanK10 s (kalmanR σ) * s.p01 + kalmanK11 s (kalmanR σ) * s.p11) =
            ((s.p00 + s.p11) * (s.p00 * s.p11 - s.p01 * s.p01) +
                kalmanR σ * (s.p00 ^ 2 + s.p11 ^ 2 + 2 * s.p01 ^ 2)) /
              kalmanDetS s (kalmanR σ) := by
        simp only [kalmanK00, kalmanK01, kalmanK10, kalmanK11]
        field_simp
        simp only [kalmanDetS]
        ring
      have hnum :
          0 ≤ (s.p00 + s.p11) * (s.p00 * s.p11 - s.p01 * s.p01) +
              kalmanR σ * (s.p00 ^ 2 + s.p11 ^ 2 + 2 * s.p01 ^ 2) := by
        have h1 : 0 ≤ (s.p00 + s.p11) * (s.p00 * s.p11 - s.p01 * s.p01) :=
          mul_nonneg (add_nonneg h00 h11) (sub_nonneg.mpr hpsd)
        have h2 : 0 ≤ kalmanR σ * (s.p00 ^ 2 + s.p11 ^ 2 + 2 * s.p01 ^ 2) := by positivity
        linarith
      have hE : 0 ≤ kalmanK00 s (kalmanR σ) * s.p00 + kalmanK01 s (kalmanR σ) * s.p01 +
          (kalmanK10 s (kalmanR σ) * s.p01 + kalmanK11 s (kalmanR σ) * s.p11) := by
        rw [key]
        exact div_nonneg hnum (le_of_lt hdetpos)
      simp only []
      nlinarith [hE]

/-- C6 witness: the update theorem applied to the state with identity
covariance at the origin, measurement (1, 1), sigma 1. -/
theorem updateKalman2D_symm_trace_witness :
    (0 ≤ (1 : ℚ) ∧ 0 ≤ (1 : ℚ) ∧ (0 : ℚ) * 0 ≤ (1 : ℚ) * 1) ∧
      (|(updateKalman2D ⟨0, 0, 1, 0, 1⟩ ⟨1, 1⟩ 1).p01 -
            kalmanUpdateP10 ⟨0, 0, 1, 0, 1⟩ 1| ≤ 1 / 1000000000 ∧
        (updateKalman2D ⟨0, 0, 1, 0, 1⟩ ⟨1, 1⟩ 1).p00 +
            (updateKalman2D ⟨0, 0, 1, 0, 1⟩ ⟨1, 1⟩ 1).p11 ≤ 1 + 1 ∧
        (kalmanDetS ⟨0, 0, 1, 0, 1⟩ (kalmanR 1) ≤ 1 / 1000000000000 →
          updateKalman2D ⟨0, 0, 1, 0, 1⟩ ⟨1, 1⟩ 1 = ⟨0, 0, 1, 0, 1⟩)) :=
  ⟨⟨by norm_num, by norm_num, by norm_num⟩,
    updateKalman2D_symm_trace ⟨0, 0, 1, 0, 1⟩ ⟨1, 1⟩ 1 (by norm_num) (by norm_num)
      (by norm_num)⟩

/-- States reachable from createKalman2D by any finite sequence of predict and
update calls. -/
inductive KalmanReachable : Kalman2DState → Prop
  | create (start : Vec2Q) (σ : ℚ) : KalmanReachable (createKalman2D start σ)
  | predict {s : Kalman2DState} (δ : Vec2Q) (σ : ℚ) :
      KalmanReachable s → KalmanReachable (predictKalman2D s δ σ)
  | update {s : Kalman2DState} (z : Vec2Q) (σ : ℚ) :
      KalmanReachable s → KalmanReachable (updateKalman2D s z σ)

lemma kalmanGains_zero_of_p01_zero (s : Kalman2DState) (r : ℚ) (h : s.p01 = 0) :
    kalmanK01 s r = 0 ∧ kalmanK10 s r = 0 := by
  constructor <;> simp [kalmanK01, kalmanK10, h]

/-- C10: every state reachable from createKalman2D by predict and update calls
has p01 = 0 and p00 = p11, and consequently the cross-coupling gains k01 and
k10 of any update from such a state are zero. -/
theorem kalmanReachable_isotropic (s : Kalman2DState) (h : KalmanReachable s) :
    (s.p01 = 0 ∧ s.p00 = s.p11) ∧
      ∀ σ : ℚ, kalmanK01 s (kalmanR σ) = 0 ∧ kalmanK10 s (kalmanR σ) = 0 := by
  have main : s.p01 = 0 ∧ s.p00 = s.p11 := by
    induction h with
    | create start σ => exact ⟨rfl, rfl⟩
    | predict δ σ hs ih =>
      obtain ⟨h01, hdiag⟩ := ih
      exact ⟨h01, by simp [predictKalman2D, hdiag]⟩
    | update z σ hs ih =>
      obtain ⟨h01, hdiag⟩ := ih
      rename_i t
      by_cases hskip : kalmanDetS t (kalmanR σ) ≤ 1 / 1000000000000
      · have hupd : updateKalman2D t z σ = t := by
          rw [updateKalman2D, if_pos hskip]
        rw [hupd]
        exact ⟨h01, hdiag⟩
      · obtain ⟨hk01, hk10⟩ := kalmanGains_zero_of_p01_zero t (kalmanR σ) h01
        have hkdiag : kalmanK00 t (kalmanR σ) = kalmanK11 t (kalmanR σ) := by
          simp [kalmanK00, kalmanK11, h01, hdiag]
        rw [updateKalman2D, if_neg hskip]
        constructor
        · simp [h01, hk01]
        · simp [h01, hk01, hk10, hkdiag, hdiag]
  exact ⟨main, fun σ => kalmanGains_zero_of_p01_zero s (kalmanR σ) main.1⟩

/-- C10 witness: the isotropy theorem applied to the concrete reachable state
obtained by create, one predict and one update. -/
theorem kalmanReachable_isotropic_witness :
    KalmanReachable
        (updateKalman2D (predictKalman2D (createKalman2D ⟨0, 0⟩ (3 / 2)) ⟨1, 0⟩ (1 / 4))
          ⟨2, 0⟩ 2) ∧
      ((updateKalman2D (predictKalman2D (createKalman2D ⟨0, 0⟩ (3 / 2)) ⟨1, 0⟩ (1 / 4))
              ⟨2, 0⟩ 2).p01 = 0 ∧
        (updateKalman2D (predictKalman2D (createKalman2D ⟨0, 0⟩ (3 / 2)) ⟨1, 0⟩ (1 / 4))
              ⟨2, 0⟩ 2).p00 =
          (updateKalman2D (predictKalman2D (createKalman2D ⟨0, 0⟩ (3 / 2)) ⟨1, 0⟩ (1 / 4))
              ⟨2, 0⟩ 2).p11) :=
  have hreach : KalmanReachable
      (updateKalman2D (predictKalman2D (createKalman2D ⟨0, 0⟩ (3 / 2)) ⟨1, 0⟩ (1 / 4))
        ⟨2, 0⟩ 2) :=
    KalmanReachable.update _ _ (KalmanReachable.predict _ _ (KalmanReachable.create _ _))
  ⟨hreach, (kalmanReachable_isotropic _ hreach).1⟩

/-! ### pdrEngine.ts / useIndoorPositioning: the step event protocol

The claim about pedometer anti-double-counting concerns the step timing
fields of PdrEngine (lastStepAt, lastIntervalMs, the two step counters),
handlePedometerSteps, and the recentlyDeviceMotion test computed by the
positioning hook.  Those fields and functions are embedded exactly; the
acceleration peak detector that decides when handleDeviceMotion fires its
onStep callback is abstracted into an input event, whose effect on these
fields (pdrEngine.ts lines 232-238) is embedded exactly. -/

/-- The step timing fields of PdrEngine (after reset all are 0). -/
structure PdrStepState where
  lastStepAt : ℚ
  lastIntervalMs : ℚ
  deviceSteps : ℚ
  pedometerSteps : ℚ
deriving DecidableEq

/-- PdrEngine state after reset: lastStepAt = 0, lastIntervalMs = 0,
deviceSteps = 0, pedometerSteps = 0. -/
def initialPdrStepState : PdrStepState :=
  { lastStepAt := 0, lastIntervalMs := 0, deviceSteps := 0, pedometerSteps := 0 }

/-- A step event delivered through the onStep callback. -/
inductive StepEvent
  | deviceMotion (now : ℚ)
  | pedometer (now : ℚ) (count : ℚ)
deriving DecidableEq

/-- The timestamp of a step event. -/
def eventTime : StepEvent → ℚ
  | .deviceMotion now => now
  | .pedometer now _ => now

/-- Inputs to the positioning session that can produce step events: a
device-motion sample on which the peak detector emits a step, or a pedometer
cumulative-count callback. -/
inductive SensorInput
  | deviceStep (now : ℚ)
  | pedometerReading (total : ℚ) (now : ℚ)
deriving DecidableEq

/-- The timestamp of a sensor input. -/
def inputTime : SensorInput → ℚ
  | .deviceStep now => now
  | .pedometerReading _ now => now

/-- Source: pdrEngine.ts, handleDeviceMotion, the branch emitting a step
(lastIntervalMs = lastStepAt ? now - lastStepAt : 0; lastStepAt = now;
deviceSteps += 1; onStep).  JavaScript truthiness of lastStepAt is
lastStepAt different from 0. -/
def deviceMotionStepUpdate (s : PdrStepState) (now : ℚ) : PdrStepState :=
  { s with
    lastIntervalMs := if s.lastStepAt ≠ 0 then now - s.lastStepAt else 0,
    lastStepAt := now,
    deviceSteps := s.deviceSteps + 1 }

/-- Source: pdrEngine.ts, handlePedometerSteps: delta = prev === 0 ? 0 :
totalSteps - prev, computed against the previously stored count. -/
def pedDelta (s : PdrStepState) (totalSteps : ℚ) : ℚ :=
  if s.pedometerSteps = 0 then 0 else totalSteps - s.pedometerSteps

/-- Source: pdrEngine.ts, handlePedometerSteps.  The stored count is replaced
by totalSteps (the source assigns it before computing delta from the old
value, with identical effect); a step event is emitted only when delta is
positive and recentlyDeviceMotion is false. -/
def handlePedometerSteps (s : PdrStepState) (totalSteps now : ℚ)
    (recentlyDeviceMotion : Bool) : PdrStepState × List StepEvent :=
  if 0 < pedDelta s totalSteps ∧ recentlyDeviceMotion = false then
    ({ s with
        pedometerSteps := totalSteps,
        lastIntervalMs := if s.lastStepAt ≠ 0 then now - s.lastStepAt else 0,
        lastStepAt := now },
      [StepEvent.pedometer now (pedDelta s totalSteps)])
  else
    ({ s with pedometerSteps := totalSteps }, [])

/-- Source: useIndoorPositioning (wifiFix.ts part), the pedometer
subscription: recentlyDeviceMotion = lastStepAt > 0 and
now - lastStepAt < 1800. -/
def recentlyDeviceMotion (s : PdrStepState) (now : ℚ) : Bool :=
  decide (0 < s.lastStepAt ∧ now - s.lastStepAt < 1800)

/-- One sensor input processed by the session: a device-motion step applies
the engine update and emits a deviceMotion event; a pedometer reading is
routed through handlePedometerSteps with the recentlyDeviceMotion flag the
hook computes from the engine state. -/
def stepInput (s : PdrStepState) : SensorInput → PdrStepState × List StepEvent
  | .deviceStep now => (deviceMotionStepUpdate s now, [StepEvent.deviceMotion now])
  | .pedometerReading total now =>
      handlePedometerSteps s total now (recentlyDeviceMotion s now)

/-- Run a list of sensor inputs through the session, collecting the emitted
step events in order. -/
def runInputs : PdrStepState → List SensorInput → PdrStepState × List StepEvent
  | s, [] => (s, [])
  | s, i :: rest =>
      let p := stepInput s i
      let q := runInputs p.1 rest
      (q.1, p.2 ++ q.2)

lemma handlePedometerSteps_emit {s : PdrStepState} {total now : ℚ} {b : Bool}
    (h : 0 < pedDelta s total ∧ b = false) :
    handlePedometerSteps s total now b =
      ({ s with
          pedometerSteps := total,
          lastIntervalMs := if s.lastStepAt ≠ 0 then now - s.lastStepAt else 0,
          lastStepAt := now },
        [StepEvent.pedometer now (pedDelta s total)]) := by
  rw [handlePedometerSteps, if_pos h]

lemma handlePedometerSteps_skip {s : PdrStepState} {total now : ℚ} {b : Bool}
    (h : ¬(0 < pedDelta s total ∧ b = false)) :
    handlePedometerSteps s total now b = ({ s with pedometerSteps := total }, []) := by
  rw [handlePedometerSteps, if_neg h]

lemma stepInput_lastStepAt (s : PdrStepState) (i : SensorInput) :
    (stepInput s i).1.lastStepAt = inputTime i ∨
      (stepInput s i).1.lastStepAt = s.lastStepAt := by
  cases i with
  | deviceStep now => exact Or.inl rfl
  | pedometerReading total now =>
      by_cases h : 0 < pedDelta s total ∧ recentlyDeviceMotion s now = false
      · rw [stepInput, handlePedometerSteps_emit h]
        exact Or.inl rfl
      · rw [stepInput, handlePedometerSteps_skip h]
        exact Or.inr rfl

lemma runInputs_append (s : PdrStepState) (xs ys : List SensorInput) :
    runInputs s (xs ++ ys) =
      ((runInputs (runInputs s xs).1 ys).1,
        (runInputs s xs).2 ++ (runInputs (runInputs s xs).1 ys).2) := by
  induction xs generalizing s with
  | nil => simp [runInputs]
  | cons i rest ih =>
      simp only [List.cons_append, runInputs, List.append_eq]
      rw [ih (stepInput s i).1]
      simp [List.append_assoc]

lemma lastStepAt_le_of_inputs (s : PdrStepState) (inputs : List SensorInput) (T : ℚ)
    (hs : s.lastStepAt ≤ T) (ht : ∀ i ∈ inputs, inputTime i ≤ T) :
    (runInputs s inputs).1.lastStepAt ≤ T := by
  induction inputs generalizing s with
  | nil => simpa [runInputs]
  | cons i rest ih =>
      simp only [runInputs]
      apply ih
      · rcases stepInput_lastStepAt s i with h | h
        · rw [h]; exact ht _ (List.mem_cons_self _ _)
        · rw [h]; exact hs
      · exact fun j hj => ht j (List.mem_cons_of_mem _ hj)

lemma lastStepAt_ge_of_inputs (s : PdrStepState) (inputs : List SensorInput) (a : ℚ)
    (hs : a ≤ s.lastStepAt) (ht : ∀ i ∈ inputs, a ≤ inputTime i) :
    a ≤ (runInputs s inputs).1.lastStepAt := by
  induction inputs generalizing s with
  | nil => simpa [runInputs]
  | cons i rest ih =>
      simp only [runInputs]
      apply ih
      · rcases stepInput_lastStepAt s i with h | h
        · rw [h]; exact ht _ (List.mem_cons_self _ _)
        · rw [h]; exact hs
      · exact fun j hj => ht j (List.mem_cons_of_mem _ hj)

lemma lastStepAt_is_event_time (s : PdrStepState) (inputs : List SensorInput) :
    (runInputs s inputs).1.lastStepAt = s.lastStepAt ∨
      ∃ e ∈ (runInputs s inputs).2, eventTime e = (runInputs s inputs).1.lastStepAt := by
  induction inputs generalizing s with
  | nil => simp [runInputs]
  | cons i rest ih =>
      simp only [runInputs]
      cases i with
      | deviceStep now =>
          rcases ih (deviceMotionStepUpdate s now) with h | h
          · refine Or.inr ⟨StepEvent.deviceMotion now, by simp [stepInput], ?_⟩
            have : (stepInput s (SensorInput.deviceStep now)).1 =
                deviceMotionStepUpdate s now := rfl
            rw [this, h]
            rfl
          · obtain ⟨e, he, hte⟩ := h
            exact Or.inr ⟨e, by simp [stepInput]; exact Or.inr he, hte⟩
      | pedometerReading total now =>
          by_cases hc : 0 < pedDelta s total ∧ recentlyDeviceMotion s now = false
          · have hstep : stepInput s (SensorInput.pedometerReading total now) =
                ({ s with
                    pedometerSteps := total,
                    lastIntervalMs := if s.lastStepAt ≠ 0 then now - s.lastStepAt else 0,
                    lastStepAt := now },
                  [StepEvent.pedometer now (pedDelta s total)]) := by
              rw [stepInput, handlePedometerSteps_emit hc]
            rw [hstep]
            rcases ih ({ s with
                pedometerSteps := total,
                lastIntervalMs := if s.lastStepAt ≠ 0 then now - s.lastStepAt else 0,
                lastStepAt := now }) with h | h
            · refine Or.inr ⟨StepEvent.pedometer now (pedDelta s total),
                List.mem_append_left _ (List.mem_singleton.mpr rfl), ?_⟩
              rw [h]
              rfl
            · obtain ⟨e, he, hte⟩ := h
              exact Or.inr ⟨e, List.mem_append_right _ he, hte⟩
          · have hstep : stepInput s (SensorInput.pedometerReading total now) =
                ({ s with pedometerSteps := total }, []) := by
              rw [stepInput, handlePedometerSteps_skip hc]
            rw [hstep]
            rcases ih ({ s with pedometerSteps := total }) with h | h
            · rw [h]
              exact Or.inl rfl
            · obtain ⟨e, he, hte⟩ := h
              exact Or.inr ⟨e, by simpa using he, hte⟩

/-- C3 counterexample: a device-motion step at t = 100, a pedometer baseline
reading, a pedometer step emitted at t = 2100, and then a positive pedometer
delta at t = 3000, which is 2900 ms after the last device-motion step, emits
nothing, because the shared lastStepAt field was refreshed by the pedometer
event at t = 2100. -/
theorem pedometer_gap_claim_false :
    (3000 : ℚ) - 100 > 1800 ∧
      (runInputs initialPdrStepState
          [SensorInput.deviceStep 100, SensorInput.pedometerReading 10 200,
            SensorInput.pedometerReading 11 2100, SensorInput.pedometerReading 12 3000]).2 =
        [StepEvent.deviceMotion 100, StepEvent.pedometer 2100 1] := by
  constructor
  · norm_num
  · norm_num [runInputs, stepInput, deviceMotionStepUpdate, handlePedometerSteps,
      recentlyDeviceMotion, pedDelta, initialPdrStepState]

/-- C3 (amended): in every time-sorted positive-timestamp input sequence, a
pedometer reading arriving less than 1800 ms after a device-motion step emits
no pedometer step event; and a pedometer reading with a positive delta
(against a nonzero stored count) arriving at least 1800 ms after every step
event emitted so far - of either source - does emit a pedometer step event
carrying that delta. -/
theorem pedometer_anti_double_count :
    (∀ (pre mid : List SensorInput) (tot td tp : ℚ),
        (pre ++ [SensorInput.deviceStep td] ++ mid ++
            [SensorInput.pedometerReading tot tp]).Pairwise
          (fun a b => inputTime a ≤ inputTime b) →
        (∀ i ∈ pre ++ [SensorInput.deviceStep td] ++ mid ++
            [SensorInput.pedometerReading tot tp], 0 < inputTime i) →
        tp - td < 1800 →
        (runInputs initialPdrStepState
            (pre ++ [SensorInput.deviceStep td] ++ mid ++
              [SensorInput.pedometerReading tot tp])).2 =
          (runInputs initialPdrStepState (pre ++ [SensorInput.deviceStep td] ++ mid)).2) ∧
    (∀ (inputs : List SensorInput) (tot tp : ℚ),
        (runInputs initialPdrStepState inputs).1.pedometerSteps ≠ 0 →
        (runInputs initialPdrStepState inputs).1.pedometerSteps < tot →
        (∀ e ∈ (runInputs initialPdrStepState inputs).2, eventTime e ≤ tp - 1800) →
        (runInputs initialPdrStepState
            (inputs ++ [SensorInput.pedometerReading tot tp])).2 =
          (runInputs initialPdrStepState inputs).2 ++
            [StepEvent.pedometer tp
              (tot - (runInputs initialPdrStepState inputs).1.pedometerSteps)]) := by
  constructor
  · intro pre mid tot td tp hpair hpos hlt
    have hsplit :
        pre ++ [SensorInput.deviceStep td] ++ mid ++
            [SensorInput.pedometerReading tot tp] =
          (pre ++ [SensorInput.deviceStep td] ++ mid) ++
            [SensorInput.pedometerReading tot tp] := by
      simp [List.append_assoc]
    rw [hsplit, runInputs_append]
    have hmain :
        (runInputs (runInputs initialPdrStepState
            (pre ++ [SensorInput.deviceStep td] ++ mid)).1
          [SensorInput.pedometerReading tot tp]).2 = [] := by
      have hassoc :
          pre ++ [SensorInput.deviceStep td] ++ mid =
            pre ++ ([SensorInput.deviceStep td] ++ mid) := by
        simp [List.append_assoc]
      -- time bounds from the sortedness hypothesis
      rw [List.append_assoc, List.append_assoc] at hpair
      rw [List.pairwise_append] at hpair
      obtain ⟨-, hpair2, -⟩ := hpair
      rw [List.pairwise_append] at hpair2
      obtain ⟨-, hpair3, hdle⟩ := hpair2
      rw [List.pairwise_append] at hpair3
      obtain ⟨-, -, hmidle⟩ := hpair3
      have htd_le : ∀ i ∈ mid, td ≤ inputTime i := by
        intro i hi
        have := hdle (SensorInput.deviceStep td) (List.mem_singleton.mpr rfl) i
          (List.mem_append_left _ hi)
        simpa [inputTime] using this
      have htd_tp : td ≤ tp := by
        have := hdle (SensorInput.deviceStep td) (List.mem_singleton.mpr rfl)
          (SensorInput.pedometerReading tot tp)
          (List.mem_append_right _ (List.mem_singleton.mpr rfl))
        simpa [inputTime] using this
      have hmid_tp : ∀ i ∈ mid, inputTime i ≤ tp := by
        intro i hi
        have := hmidle i hi (SensorInput.pedometerReading tot tp)
          (List.mem_singleton.mpr rfl)
        simpa [inputTime] using this
      have htdpos : 0 < td := by
        have := hpos (SensorInput.deviceStep td)
          (by simp)
        simpa [inputTime] using this
      set s1 := (runInputs initialPdrStepState
        (pre ++ [SensorInput.deviceStep td] ++ mid)).1 with hs1
      have hs1split : s1 = (runInputs (deviceMotionStepUpdate
          (runInputs initialPdrStepState pre).1 td) mid).1 := by
        rw [hs1, hassoc, runInputs_append]
        have : (runInputs (runInputs initialPdrStepState pre).1
            ([SensorInput.deviceStep td] ++ mid)) =
          (runInputs (stepInput (runInputs initialPdrStepState pre).1
              (SensorInput.deviceStep td)).1 mid |>.1,
            (stepInput (runInputs initialPdrStepState pre).1
              (SensorInput.deviceStep td)).2 ++
              (runInputs (stepInput (runInputs initialPdrStepState pre).1
                (SensorInput.deviceStep td)).1 mid).2) := by
          simp [runInputs]
        rw [this]
        rfl
      have hge : td ≤ s1.lastStepAt := by
        rw [hs1split]
        apply lastStepAt_ge_of_inputs
        · simp [deviceMotionStepUpdate]
        · exact htd_le
      have hle : s1.lastStepAt ≤ tp := by
        rw [hs1split]
        apply lastStepAt_le_of_inputs
        · simp only [deviceMotionStepUpdate]
          exact htd_tp
        · exact hmid_tp
      have hrecent : recentlyDeviceMotion s1 tp = true := by
        rw [recentlyDeviceMotion, decide_eq_true_eq]
        exact ⟨lt_of_lt_of_le htdpos hge, by linarith⟩
      have hskip : ¬(0 < pedDelta s1 tot ∧ recentlyDeviceMotion s1 tp = false) := by
        rintro ⟨-, hfalse⟩
        rw [hrecent] at hfalse
        simp at hfalse
      have : stepInput s1 (SensorInput.pedometerReading tot tp) =
          ({ s1 with pedometerSteps := tot }, []) := by
        rw [stepInput, handlePedometerSteps_skip hskip]
      simp [runInputs, this]
    rw [hmain]
    simp
  · intro inputs tot tp hne hlt hgap
    rw [runInputs_append]
    set s1 := (runInputs initialPdrStepState inputs).1 with hs1
    have hdelta : pedDelta s1 tot = tot - s1.pedometerSteps := by
      rw [pedDelta, if_neg hne]
    have hnotrecent : recentlyDeviceMotion s1 tp = false := by
      rw [recentlyDeviceMotion, decide_eq_false_iff_not]
      rcases lastStepAt_is_event_time initialPdrStepState inputs with h | h
      · rw [← hs1] at h
        rw [h]
        rintro ⟨hpos0, -⟩
        exact absurd hpos0 (by norm_num [initialPdrStepState])
      · obtain ⟨e, he, hte⟩ := h
        rw [← hs1] at hte
        have := hgap e he
        rw [hte] at this
        rintro ⟨-, hlt1800⟩
        linarith
    have hemit : 0 < pedDelta s1 tot ∧ recentlyDeviceMotion s1 tp = false := by
      refine ⟨?_, hnotrecent⟩
      rw [hdelta]
      linarith
    have : stepInput s1 (SensorInput.pedometerReading tot tp) =
        ({ s1 with
            pedometerSteps := tot,
            lastIntervalMs := if s1.lastStepAt ≠ 0 then tp - s1.lastStepAt else 0,
            lastStepAt := tp },
          [StepEvent.pedometer tp (pedDelta s1 tot)]) := by
      rw [stepInput, handlePedometerSteps_emit hemit]
    simp [runInputs, this, hdelta]

/-- C3 witness: the amended theorem applied to the concrete trace of one
device-motion step at t = 1000 followed by a pedometer reading at t = 2000,
which is suppressed. -/
theorem pedometer_anti_double_count_witness :
    (runInputs initialPdrStepState
        ([] ++ [SensorInput.deviceStep 1000] ++ [] ++
          [SensorInput.pedometerReading 5 2000])).2 =
      (runInputs initialPdrStepState ([] ++ [SensorInput.deviceStep 1000] ++ [])).2 :=
  pedometer_anti_double_count.1 [] [] 5 1000 2000
    (by norm_num [List.pairwise_cons, inputTime])
    (by
      intro i hi
      simp at hi
      rcases hi with rfl | rfl <;> norm_num [inputTime])
    (by norm_num)

/-! ### mapmatching/geometry.ts and nav/turnByTurn.ts

These use Math.hypot, Math.atan2 and the float remainder, so they are
embedded over the real numbers. -/

noncomputable section

/-- Source: geometry.ts, Point2. -/
structure Point2 where
  x : ℝ
  y : ℝ

/-- Source: geometry.ts, clamp (over the reals). -/
def clampR (n lo hi : ℝ) : ℝ := max lo (min hi n)

/-- Source: geometry.ts, dist = Math.hypot of the coordinate differences. -/
def dist (a b : Point2) : ℝ := Real.sqrt ((a.x - b.x) ^ 2 + (a.y - b.y) ^ 2)

/-- The result record of projectPointToSegment. -/
structure ProjResult where
  t : ℝ
  point : Point2
  distance : ℝ

/-- Source: geometry.ts, projectPointToSegment.  When the squared segment
length is at most 1e-9 the parameter t is 0. -/
def projectPointToSegment (p a b : Point2) : ProjResult :=
  let abx := b.x - a.x
  let aby := b.y - a.y
  let apx := p.x - a.x
  let apy := p.y - a.y
  let denom := abx * abx + aby * aby
  let t := if denom ≤ 1 / 1000000000 then 0
    else clampR ((apx * abx + apy * aby) / denom) 0 1
  let q : Point2 := ⟨a.x + abx * t, a.y + aby * t⟩
  ⟨t, q, Real.sqrt ((p.x - q.x) ^ 2 + (p.y - q.y) ^ 2)⟩

/-- Truncation toward zero on the reals, for the JavaScript remainder. -/
def jsTruncR (r : ℝ) : ℤ := if 0 ≤ r then ⌊r⌋ else ⌈r⌉

/-- The JavaScript remainder operator on real values. -/
def jsModR (x y : ℝ) : ℝ := x - y * jsTruncR (x / y)

/-- Math.atan2(y, x) (signed zeros are outside the model; atan2(0,0) = 0 as
in JavaScript). -/
def jsAtan2 (y x : ℝ) : ℝ :=
  if 0 < x then Real.arctan (y / x)
  else if x < 0 then
    (if 0 ≤ y then Real.arctan (y / x) + Real.pi else Real.arctan (y / x) - Real.pi)
  else
    (if 0 < y then Real.pi / 2 else if y < 0 then -Real.pi / 2 else 0)

/-- Source: turnByTurn.ts, ManeuverType. -/
inductive ManeuverType
  | start
  | arrive
  | left
  | right
  | straight
  | uturn
deriving DecidableEq

/-- Source: turnByTurn.ts, Maneuver. -/
structure Maneuver where
  type : ManeuverType
  atIndex : ℕ
  point : Point2
  distanceFromStartMeters : ℝ
  instruction : String

/-- Indexing into a polyline (the source indexes within bounds only). -/
def polyGet (l : List Point2) (i : ℕ) : Point2 := l.getD i ⟨0, 0⟩

/-- Source: turnByTurn.ts, bearingDeg: atan2(dx, -dy) in degrees wrapped to
[0, 360). -/
def bearingDeg (a b : Point2) : ℝ :=
  let dx := b.x - a.x
  let dy := b.y - a.y
  let rad := jsAtan2 dx (-dy)
  let deg := rad * 180 / Real.pi
  let h := jsModR deg 360
  if h < 0 then h + 360 else h

/-- Source: turnByTurn.ts, angleDiff. -/
def angleDiff (a b : ℝ) : ℝ := jsModR (a - b + 540) 360 - 180

/-- Source: turnByTurn.ts, classifyTurn. -/
def classifyTurn (delta : ℝ) : ManeuverType :=
  if |delta| < 28 then ManeuverType.straight
  else if 150 < |delta| then ManeuverType.uturn
  else if 0 < delta then ManeuverType.right
  else ManeuverType.left

/-- The turn angle the source computes at interior vertex i of a polyline. -/
def deltaAt (polyline : List Point2) (i : ℕ) : ℝ :=
  angleDiff (bearingDeg (polyGet polyline i) (polyGet polyline (i + 1)))
    (bearingDeg (polyGet polyline (i - 1)) (polyGet polyline i))

/-- Source: turnByTurn.ts, buildManeuvers, the interior for-loop over
i in [1, length - 1), carrying the cumulative distance.  The turn angle
delta = angleDiff(bearing(cur, next), bearing(prev, cur)) of the source is
written deltaAt polyline i, and straight turns are suppressed. -/
def buildLoop (polyline : List Point2) (i : ℕ) (cumulative : ℝ) : List Maneuver :=
  if h : i < polyline.length - 1 then
    if classifyTurn (deltaAt polyline i) = ManeuverType.straight then
      buildLoop polyline (i + 1)
        (cumulative + dist (polyGet polyline (i - 1)) (polyGet polyline i))
    else
      { type := classifyTurn (deltaAt polyline i), atIndex := i,
        point := polyGet polyline i,
        distanceFromStartMeters :=
          cumulative + dist (polyGet polyline (i - 1)) (polyGet polyline i),
        instruction :=
          if classifyTurn (deltaAt polyline i) = ManeuverType.left then "Turn left"
          else if classifyTurn (deltaAt polyline i) = ManeuverType.right then
            "Turn right"
          else "Make a U-turn" } ::
        buildLoop polyline (i + 1)
          (cumulative + dist (polyGet polyline (i - 1)) (polyGet polyline i))
  else []
termination_by polyline.length - 1 - i
decreasing_by all_goals omega

/-- Source: turnByTurn.ts, buildManeuvers, the reduce computing the total
polyline length (sum of consecutive distances, as a left fold over the
consecutive pairs). -/
def polylineTotal (polyline : List Point2) : ℝ :=
  (List.zip polyline polyline.tail).foldl (fun acc pq => acc + dist pq.1 pq.2) 0

/-- Source: turnByTurn.ts, buildManeuvers. -/
def buildManeuvers (polyline : List Point2) : List Maneuver :=
  if polyline.length < 2 then []
  else
    ({ type := ManeuverType.start, atIndex := 0, point := polyGet polyline 0,
       distanceFromStartMeters := 0, instruction := "Start" } : Maneuver) ::
      (buildLoop polyline 1 0 ++
        [{ type := ManeuverType.arrive, atIndex := polyline.length - 1,
           point := polyGet polyline (polyline.length - 1),
           distanceFromStartMeters := polylineTotal polyline,
           instruction := "Arrive" }])

/-- Math.round: round half toward positive infinity. -/
def jsRound (x : ℝ) : ℤ := ⌊x + 1 / 2⌋

/-- JavaScript String.prototype.toLowerCase, for the ASCII instruction
strings used here: lower-cases each character (modelled over the character
list so that concrete instances reduce). -/
def jsToLowerCase (s : String) : String := String.mk (s.data.map Char.toLower)

open scoped Classical in
/-- Source: turnByTurn.ts, formatNextInstruction. -/
def formatNextInstruction (m : Option Maneuver) (distanceMeters : Option ℝ) : String :=
  match m with
  | none => "Select a destination"
  | some mv =>
      if mv.type = ManeuverType.start then "Start walking"
      else if mv.type = ManeuverType.arrive then
        match distanceMeters with
        | some d => if d < 2 then "Arrive" else "Continue to destination"
        | none => "Continue to destination"
      else
        match distanceMeters with
        | none => mv.instruction
        | some d =>
            "In " ++ toString (max 0 (jsRound d)) ++ "m, " ++ jsToLowerCase mv.instruction

end

lemma classifyTurn_props (delta : ℝ)
    (h : classifyTurn delta ≠ ManeuverType.straight) :
    28 ≤ |delta| ∧ classifyTurn delta ≠ ManeuverType.start ∧
      classifyTurn delta ≠ ManeuverType.arrive := by
  by_cases h1 : |delta| < 28
  · exact absurd (by rw [classifyTurn, if_pos h1]) h
  · refine ⟨le_of_not_lt h1, ?_, ?_⟩ <;>
      · rw [classifyTurn, if_neg h1]
        split_ifs <;> decide

lemma buildLoop_spec (polyline : List Point2) :
    ∀ (fuel i : ℕ) (cum : ℝ), polyline.length - 1 - i ≤ fuel →
      ∀ m ∈ buildLoop polyline i cum,
        (m.type ≠ ManeuverType.start ∧ m.type ≠ ManeuverType.arrive) ∧
          i ≤ m.atIndex ∧ m.atIndex < polyline.length - 1 ∧
          28 ≤ |deltaAt polyline m.atIndex| := by
  intro fuel
  induction fuel with
  | zero =>
      intro i cum hle m hm
      rw [buildLoop, dif_neg (by omega)] at hm
      exact absurd hm (List.not_mem_nil m)
  | succ n ih =>
      intro i cum hle m hm
      by_cases hi : i < polyline.length - 1
      · rw [buildLoop, dif_pos hi] at hm
        by_cases ht : classifyTurn (deltaAt polyline i) = ManeuverType.straight
        · rw [if_pos ht] at hm
          have := ih (i + 1) _ (by omega) m hm
          exact ⟨this.1, by omega, this.2.2.1, this.2.2.2⟩
        · rw [if_neg ht] at hm
          rcases List.mem_cons.mp hm with rfl | hm2
          · obtain ⟨habs, hns, hna⟩ := classifyTurn_props _ ht
            exact ⟨⟨hns, hna⟩, le_refl _, hi, habs⟩
          · have := ih (i + 1) _ (by omega) m hm2
            exact ⟨this.1, by omega, this.2.2.1, this.2.2.2⟩
      · rw [buildLoop, dif_neg hi] at hm
        exact absurd hm (List.not_mem_nil m)

/-- C5 counterexample: on a one-point polyline buildManeuvers returns the
empty list, so it emits no start maneuver at index 0 and no arrive maneuver,
refuting the claim as stated for every polyline. -/
theorem buildManeuvers_singleton_empty :
    buildManeuvers [(⟨0, 0⟩ : Point2)] = [] ∧
      ¬∃ m ∈ buildManeuvers [(⟨0, 0⟩ : Point2)], m.type = ManeuverType.start := by
  have h : buildManeuvers [(⟨0, 0⟩ : Point2)] = [] := by
    rw [buildManeuvers, if_pos (by norm_num)]
  refine ⟨h, ?_⟩
  rw [h]
  simp

/-- C5 (amended): for every polyline of at least two points, buildManeuvers
is a start maneuver at index 0, followed by interior maneuvers, followed by
exactly one arrive maneuver at index n-1; every interior maneuver has a type
other than start and arrive, an index strictly between 0 and n-1, and a turn
angle delta with absolute value at least 28 degrees. -/
theorem buildManeuvers_spec (polyline : List Point2) (h2 : 2 ≤ polyline.length) :
    ∃ mid,
      buildManeuvers polyline =
        ({ type := ManeuverType.start, atIndex := 0, point := polyGet polyline 0,
           distanceFromStartMeters := 0, instruction := "Start" } : Maneuver) ::
          (mid ++
            [{ type := ManeuverType.arrive, atIndex := polyline.length - 1,
               point := polyGet polyline (polyline.length - 1),
               distanceFromStartMeters := polylineTotal polyline,
               instruction := "Arrive" }]) ∧
        ∀ m ∈ mid,
          (m.type ≠ ManeuverType.start ∧ m.type ≠ ManeuverType.arrive) ∧
            0 < m.atIndex ∧ m.atIndex < polyline.length - 1 ∧
            28 ≤ |deltaAt polyline m.atIndex| := by
  refine ⟨buildLoop polyline 1 0, ?_, ?_⟩
  · rw [buildManeuvers, if_neg (by omega)]
  · intro m hm
    have := buildLoop_spec polyline polyline.length 1 0 (by omega) m hm
    exact ⟨this.1, by omega, this.2.2.1, this.2.2.2⟩

/-- C5 witness: the maneuver structure theorem applied to a concrete
two-point polyline. -/
theorem buildManeuvers_spec_witness :
    2 ≤ ([⟨0, 0⟩, ⟨0, 1⟩] : List Point2).length ∧
      ∃ mid,
        buildManeuvers [(⟨0, 0⟩ : Point2), ⟨0, 1⟩] =
          ({ type := ManeuverType.start, atIndex := 0,
             point := polyGet [⟨0, 0⟩, ⟨0, 1⟩] 0,
             distanceFromStartMeters := 0, instruction := "Start" } : Maneuver) ::
            (mid ++
              [{ type := ManeuverType.arrive,
                 atIndex := ([⟨0, 0⟩, ⟨0, 1⟩] : List Point2).length - 1,
                 point := polyGet [⟨0, 0⟩, ⟨0, 1⟩]
                   (([⟨0, 0⟩, ⟨0, 1⟩] : List Point2).length - 1),
                 distanceFromStartMeters := polylineTotal [⟨0, 0⟩, ⟨0, 1⟩],
                 instruction := "Arrive" }]) ∧
          ∀ m ∈ mid,
            (m.type ≠ ManeuverType.start ∧ m.type ≠ ManeuverType.arrive) ∧
              0 < m.atIndex ∧
              m.atIndex < ([⟨0, 0⟩, ⟨0, 1⟩] : List Point2).length - 1 ∧
              28 ≤ |deltaAt [⟨0, 0⟩, ⟨0, 1⟩] m.atIndex| :=
  ⟨by simp, buildManeuvers_spec [⟨0, 0⟩, ⟨0, 1⟩] (by simp)⟩

/-- C4 counterexample: at distance 0.2 m before a left turn the code prints
the rounded distance 0 ("In 0m, turn left"), while rounding up would give 1,
so the claimed ceiling formatting is refuted at a concrete input. -/
theorem formatNextInstruction_not_ceil :
    formatNextInstruction
        (some ⟨ManeuverType.left, 1, ⟨0, 0⟩, 0, "Turn left"⟩) (some (1 / 5)) =
      "In 0m, turn left" ∧
      ⌈(1 / 5 : ℝ)⌉ = 1 ∧
      formatNextInstruction
          (some ⟨ManeuverType.left, 1, ⟨0, 0⟩, 0, "Turn left"⟩) (some (1 / 5)) ≠
        "In " ++ toString (⌈(1 / 5 : ℝ)⌉ : ℤ) ++ "m, turn left" := by
  have hr : jsRound ((1 : ℝ) / 5) = 0 := by
    rw [jsRound, show (1 : ℝ) / 5 + 1 / 2 = 7 / 10 by norm_num, Int.floor_eq_zero_iff]
    simp [Set.mem_Ico]
    norm_num
  have hc : ⌈(1 / 5 : ℝ)⌉ = 1 := by
    rw [Int.ceil_eq_iff]
    norm_num
  have hmain : formatNextInstruction
      (some ⟨ManeuverType.left, 1, ⟨0, 0⟩, 0, "Turn left"⟩) (some (1 / 5)) =
      "In 0m, turn left" := by
    simp only [formatNextInstruction]
    rw [if_neg (by decide), if_neg (by decide), hr]
    decide
  refine ⟨hmain, hc, ?_⟩
  rw [hmain, hc]
  decide

/-- C4 (amended): formatNextInstruction returns "Select a destination" for a
null maneuver, "Start walking" for a start maneuver, "Arrive" versus
"Continue to destination" at an arrive maneuver according to d < 2, and for
every other maneuver type the string "In {m}m, {instruction lower-cased}"
where m = max(0, round(d)) rounds d to the nearest whole number (half up),
not up to the next whole number. -/
theorem formatNextInstruction_spec :
    (∀ d : Option ℝ, formatNextInstruction none d = "Select a destination") ∧
      (∀ (m : Maneuver) (d : Option ℝ), m.type = ManeuverType.start →
        formatNextInstruction (some m) d = "Start walking") ∧
      (∀ (m : Maneuver) (dv : ℝ), m.type = ManeuverType.arrive →
        (dv < 2 → formatNextInstruction (some m) (some dv) = "Arrive") ∧
          (¬dv < 2 →
            formatNextInstruction (some m) (some dv) = "Continue to destination")) ∧
      (∀ (m : Maneuver) (dv : ℝ), m.type ≠ ManeuverType.start →
        m.type ≠ ManeuverType.arrive →
        formatNextInstruction (some m) (some dv) =
          "In " ++ toString (max 0 (jsRound dv)) ++ "m, " ++ jsToLowerCase m.instruction) := by
  refine ⟨fun d => rfl, ?_, ?_, ?_⟩
  · intro m d hm
    simp only [formatNextInstruction]
    rw [if_pos hm]
  · intro m dv hm
    constructor
    · intro hlt
      simp only [formatNextInstruction]
      rw [if_neg (by rw [hm]; decide), if_pos hm, if_pos hlt]
    · intro hge
      simp only [formatNextInstruction]
      rw [if_neg (by rw [hm]; decide), if_pos hm, if_neg hge]
  · intro m dv hs ha
    simp only [formatNextInstruction]
    rw [if_neg hs, if_neg ha]

/-- C4 witness: the formatting theorem applied to a concrete right-turn
maneuver at distance 2.4 m, where rounding half-up yields 2. -/
theorem formatNextInstruction_spec_witness :
    (⟨ManeuverType.right, 1, ⟨0, 0⟩, 0, "Turn right"⟩ : Maneuver).type ≠
        ManeuverType.start ∧
      (⟨ManeuverType.right, 1, ⟨0, 0⟩, 0, "Turn right"⟩ : Maneuver).type ≠
        ManeuverType.arrive ∧
      formatNextInstruction
          (some ⟨ManeuverType.right, 1, ⟨0, 0⟩, 0, "Turn right"⟩) (some (12 / 5)) =
        "In " ++ toString (max 0 (jsRound (12 / 5))) ++ "m, " ++
          jsToLowerCase "Turn right" :=
  ⟨by decide, by decide,
    formatNextInstruction_spec.2.2.2 ⟨ManeuverType.right, 1, ⟨0, 0⟩, 0, "Turn right"⟩
      (12 / 5) (by decide) (by decide)⟩

/-! ### positioning/wifiFix.ts

RSSI weights use Math.exp, so the component is embedded over the reals.
BSSID strings keep JavaScript semantics: the truthiness filter drops empty
strings, trim and toLowerCase are modelled over the character list. -/

noncomputable section

/-- Source: navigation/wifi.ts, WifiReading. -/
structure WifiReading where
  bssid : String
  level : ℝ

/-- Source: storeMap.ts, anchor source tag. -/
inductive AnchorSource
  | mock
  | live
deriving DecidableEq

/-- Source: storeMap.ts, StoreMapAnchor. -/
structure StoreMapAnchor where
  bssid : String
  label : String
  x : ℝ
  y : ℝ
  floor : ℤ
  source : AnchorSource
  confidence : Option ℝ

/-- JavaScript String.prototype.trim for the ASCII identifiers used here:
drops whitespace from both ends (modelled over the character list). -/
def jsTrim (s : String) : String :=
  String.mk (((s.data.dropWhile Char.isWhitespace).reverse.dropWhile
    Char.isWhitespace).reverse)

/-- Source: wifiFix.ts, normalizeBssid = bssid.trim().toLowerCase(). -/
def normalizeBssid (bssid : String) : String := jsToLowerCase (jsTrim bssid)

/-- Source: wifiFix.ts, the byBssid Map: anchors are inserted in order, so
for a duplicated normalized BSSID the last anchor wins; lookup is modelled
as the first match in the reversed list. -/
def byBssidGet (anchors : List StoreMapAnchor) (key : String) : Option StoreMapAnchor :=
  anchors.reverse.find? (fun a => normalizeBssid a.bssid = key)

/-- Source: wifiFix.ts, the matched readings: readings with a truthy
(non-empty) bssid, normalized, that hit an anchor. -/
def matchedReadings (readings : List WifiReading) (anchors : List StoreMapAnchor) :
    List WifiReading :=
  ((readings.filter (fun r => r.bssid ≠ "")).map
      (fun r => { r with bssid := normalizeBssid r.bssid })).filter
    (fun r => (byBssidGet anchors r.bssid).isSome)

/-- Source: wifiFix.ts, best = matched.reduce(max by rssi, matched[0]). -/
def bestReading (l : List WifiReading) (hd : WifiReading) : WifiReading :=
  l.foldl (fun acc r => if acc.level < r.level then r else acc) hd

/-- Source: wifiFix.ts, the per-reading weight
w = clamp(exp((clamp(rssi, -95, -35) + 100) / 10), 1, 400). -/
def wifiWeight (level : ℝ) : ℝ :=
  clampR (Real.exp ((clampR level (-95) (-35) + 100) / 10)) 1 400

/-- Source: wifiFix.ts, the accumulation loop (sumW, x, y). -/
def wifiSums (readings : List WifiReading) (anchors : List StoreMapAnchor) :
    ℝ × ℝ × ℝ :=
  (matchedReadings readings anchors).foldl
    (fun acc r =>
      match byBssidGet anchors r.bssid with
      | none => acc
      | some a =>
          (acc.1 + wifiWeight r.level, acc.2.1 + a.x * wifiWeight r.level,
            acc.2.2 + a.y * wifiWeight r.level))
    (0, 0, 0)

/-- Source: wifiFix.ts, WifiFix (best is always present on the produced
value). -/
structure WifiFix where
  x : ℝ
  y : ℝ
  matched : ℕ
  best : WifiReading

open scoped Classical in
/-- Source: wifiFix.ts, computeWifiFix. -/
def computeWifiFix (readings : List WifiReading) (anchors : List StoreMapAnchor) :
    Option WifiFix :=
  match hm : matchedReadings readings anchors with
  | [] => none
  | m0 :: rest =>
      let best := bestReading (m0 :: rest) m0
      let sums := wifiSums readings anchors
      if sums.1 ≤ 0 then none
      else some ⟨sums.2.1 / sums.1, sums.2.2 / sums.1, (m0 :: rest).length, best⟩

lemma wifiWeight_ge_one (level : ℝ) : 1 ≤ wifiWeight level := le_max_left _ _

lemma wifiSums_fst_lower (anchors : List StoreMapAnchor) :
    ∀ (l : List WifiReading) (acc : ℝ × ℝ × ℝ),
      (∀ r ∈ l, (byBssidGet anchors r.bssid).isSome = true) →
      acc.1 + l.length ≤
        (l.foldl
          (fun acc r =>
            match byBssidGet anchors r.bssid with
            | none => acc
            | some a =>
                (acc.1 + wifiWeight r.level, acc.2.1 + a.x * wifiWeight r.level,
                  acc.2.2 + a.y * wifiWeight r.level))
          acc).1 := by
  intro l
  induction l with
  | nil => intro acc _; simp
  | cons r rest ih =>
      intro acc hall
      have hr : (byBssidGet anchors r.bssid).isSome = true :=
        hall r (List.mem_cons_self _ _)
      obtain ⟨a, ha⟩ := Option.isSome_iff_exists.mp hr
      simp only [List.foldl_cons, ha]
      have := ih (acc.1 + wifiWeight r.level, acc.2.1 + a.x * wifiWeight r.level,
        acc.2.2 + a.y * wifiWeight r.level)
        (fun s hs => hall s (List.mem_cons_of_mem _ hs))
      simp only [List.length_cons] at *
      have hw := wifiWeight_ge_one r.level
      push_cast at this ⊢
      linarith

lemma matchedReadings_isSome (readings : List WifiReading)
    (anchors : List StoreMapAnchor) :
    ∀ r ∈ matchedReadings readings anchors, (byBssidGet anchors r.bssid).isSome = true := by
  intro r hr
  have := List.of_mem_filter hr
  simpa using this

lemma bestReading_mem : ∀ (l : List WifiReading) (hd : WifiReading),
    bestReading l hd = hd ∨ bestReading l hd ∈ l := by
  intro l
  induction l with
  | nil => intro hd; exact Or.inl rfl
  | cons r rest ih =>
      intro hd
      simp only [bestReading, List.foldl_cons]
      by_cases h : hd.level < r.level
      · rw [if_pos h]
        rcases ih r with h2 | h2
        · exact Or.inr (by rw [bestReading] at h2; rw [h2]; exact List.mem_cons_self _ _)
        · exact Or.inr (List.mem_cons_of_mem _ (by rwa [bestReading] at h2))
      · rw [if_neg h]
        rcases ih hd with h2 | h2
        · exact Or.inl (by rwa [bestReading] at h2)
        · exact Or.inr (List.mem_cons_of_mem _ (by rwa [bestReading] at h2))

lemma bestReading_ge : ∀ (l : List WifiReading) (hd : WifiReading),
    hd.level ≤ (bestReading l hd).level ∧
      ∀ r ∈ l, r.level ≤ (bestReading l hd).level := by
  intro l
  induction l with
  | nil => intro hd; exact ⟨le_refl _, by simp⟩
  | cons r rest ih =>
      intro hd
      simp only [bestReading, List.foldl_cons]
      by_cases h : hd.level < r.level
      · rw [if_pos h]
        obtain ⟨h1, h2⟩ := ih r
        rw [bestReading] at h1 h2
        refine ⟨le_of_lt (lt_of_lt_of_le h h1), ?_⟩
        intro s hs
        rcases List.mem_cons.mp hs with rfl | hs2
        · exact h1
        · exact h2 s hs2
      · rw [if_neg h]
        obtain ⟨h1, h2⟩ := ih hd
        rw [bestReading] at h1 h2
        refine ⟨h1, ?_⟩
        intro s hs
        rcases List.mem_cons.mp hs with rfl | hs2
        · exact le_trans (le_of_not_lt h) h1
        · exact h2 s hs2

lemma computeWifiFix_cons {readings : List WifiReading}
    {anchors : List StoreMapAnchor} {m0 : WifiReading} {rest : List WifiReading}
    (hm : matchedReadings readings anchors = m0 :: rest) :
    computeWifiFix readings anchors =
      some ⟨(wifiSums readings anchors).2.1 / (wifiSums readings anchors).1,
        (wifiSums readings anchors).2.2 / (wifiSums readings anchors).1,
        (m0 :: rest).length, bestReading (m0 :: rest) m0⟩ := by
  have hlen : (0 : ℝ) + ((matchedReadings readings anchors).length : ℝ) ≤
      (wifiSums readings anchors).1 := by
    have := wifiSums_fst_lower anchors (matchedReadings readings anchors) (0, 0, 0)
      (matchedReadings_isSome readings anchors)
    simpa [wifiSums] using this
  have hpos : 0 < (wifiSums readings anchors).1 := by
    rw [hm] at hlen
    simp only [List.length_cons] at hlen
    push_cast at hlen
    linarith
  simp only [computeWifiFix]
  rw [hm]
  simp only [if_neg (not_le.mpr hpos)]

lemma byBssidGet_isSome_iff (anchors : List StoreMapAnchor) (key : String) :
    (byBssidGet anchors key).isSome = true ↔
      ∃ a ∈ anchors, normalizeBssid a.bssid = key := by
  rw [byBssidGet, List.find?_isSome]
  simp

lemma matchedReadings_eq_nil_iff (readings : List WifiReading)
    (anchors : List StoreMapAnchor) :
    matchedReadings readings anchors = [] ↔
      ¬∃ r ∈ readings, r.bssid ≠ "" ∧
        ∃ a ∈ anchors, normalizeBssid a.bssid = normalizeBssid r.bssid := by
  rw [matchedReadings]
  rw [List.filter_eq_nil_iff]
  constructor
  · rintro h ⟨r, hr, hne, a, ha, heq⟩
    refine h ⟨normalizeBssid r.bssid, r.level⟩
      (List.mem_map.mpr ⟨r, List.mem_filter.mpr ⟨hr, by simpa using hne⟩, rfl⟩) ?_
    exact (byBssidGet_isSome_iff anchors (normalizeBssid r.bssid)).mpr ⟨a, ha, heq⟩
  · intro hno x hx
    obtain ⟨r, hrf, rfl⟩ := List.mem_map.mp hx
    have hr := List.mem_filter.mp hrf
    intro hsome
    obtain ⟨a, ha, heq⟩ := (byBssidGet_isSome_iff _ _).mp hsome
    exact hno ⟨r, hr.1, by simpa using hr.2, a, ha, heq⟩

/-- C9 counterexample: a reading whose BSSID is the empty string is dropped
by the truthiness filter before normalization, so computeWifiFix returns
none even though the trimmed lower-cased BSSIDs match an anchor. -/
theorem computeWifiFix_empty_bssid_none :
    computeWifiFix [⟨"", -50⟩] [⟨"", "L", 0, 0, 0, AnchorSource.mock, none⟩] = none ∧
      normalizeBssid ("" : String) =
        normalizeBssid (⟨"", "L", 0, 0, 0, AnchorSource.mock, none⟩ : StoreMapAnchor).bssid := by
  constructor
  · have hm : matchedReadings [(⟨"", -50⟩ : WifiReading)]
        [⟨"", "L", 0, 0, 0, AnchorSource.mock, none⟩] = [] := by
      simp [matchedReadings]
    simp only [computeWifiFix]
    rw [hm]
  · rfl

/-- C9 (amended): computeWifiFix returns none exactly when no reading with a
non-empty BSSID matches an anchor after trimming and lower-casing (a reading
whose BSSID is the empty string is dropped by the truthiness filter even if
an anchor trims to the empty string); when some reading matches, it returns
the weighted centroid of the matched anchors with matched equal to the
number of matching readings and best a matched reading of maximum rssi; on
the two-anchor scenario A = (0,0) at -60 dBm and B = (10,0) at -80 dBm the
fix is x = 10 e^2 / (e^4 + e^2), y = 0.  The function is total, so it never
throws. -/
theorem computeWifiFix_spec :
    (∀ (readings : List WifiReading) (anchors : List StoreMapAnchor),
        computeWifiFix readings anchors = none ↔
          ¬∃ r ∈ readings, r.bssid ≠ "" ∧
            ∃ a ∈ anchors, normalizeBssid a.bssid = normalizeBssid r.bssid) ∧
      (∀ (readings : List WifiReading) (anchors : List StoreMapAnchor)
          (m0 : WifiReading) (rest : List WifiReading),
          matchedReadings readings anchors = m0 :: rest →
          ∃ fix, computeWifiFix readings anchors = some fix ∧
            fix.matched = (m0 :: rest).length ∧
            fix.x = (wifiSums readings anchors).2.1 / (wifiSums readings anchors).1 ∧
            fix.y = (wifiSums readings anchors).2.2 / (wifiSums readings anchors).1 ∧
            fix.best ∈ m0 :: rest ∧
            ∀ r ∈ m0 :: rest, r.level ≤ fix.best.level) ∧
      computeWifiFix [⟨"aa", -60⟩, ⟨"bb", -80⟩]
          [⟨"aa", "A", 0, 0, 0, AnchorSource.mock, none⟩,
            ⟨"bb", "B", 10, 0, 0, AnchorSource.mock, none⟩] =
        some ⟨10 * Real.exp 2 / (Real.exp 4 + Real.exp 2), 0, 2, ⟨"aa", -60⟩⟩ := by
  have hA : ∀ (readings : List WifiReading) (anchors : List StoreMapAnchor),
      computeWifiFix readings anchors = none ↔
        ¬∃ r ∈ readings, r.bssid ≠ "" ∧
          ∃ a ∈ anchors, normalizeBssid a.bssid = normalizeBssid r.bssid := by
    intro readings anchors
    rw [← matchedReadings_eq_nil_iff]
    constructor
    · intro h
      cases hm : matchedReadings readings anchors with
      | nil => rfl
      | cons m0 rest =>
          rw [computeWifiFix_cons hm] at h
          exact absurd h (Option.some_ne_none _)
    · intro hm
      simp only [computeWifiFix]
      rw [hm]
  refine ⟨hA, ?_, ?_⟩
  · intro readings anchors m0 rest hm
    refine ⟨⟨(wifiSums readings anchors).2.1 / (wifiSums readings anchors).1,
      (wifiSums readings anchors).2.2 / (wifiSums readings anchors).1,
      (m0 :: rest).length, bestReading (m0 :: rest) m0⟩,
      computeWifiFix_cons hm, rfl, rfl, rfl, ?_, ?_⟩
    · rcases bestReading_mem (m0 :: rest) m0 with h | h
      · rw [h]; exact List.mem_cons_self _ _
      · exact h
    · exact (bestReading_ge (m0 :: rest) m0).2
  · -- the S3 scenario
    have hexp4_le : Real.exp 4 ≤ 400 := by
      have h4 : Real.exp 4 = (Real.exp 1) ^ (4 : ℕ) := by
        rw [← Real.exp_nat_mul]; norm_num
      have he : Real.exp 1 ≤ 2.7182818286 := le_of_lt Real.exp_one_lt_d9
      have hpos : (0 : ℝ) ≤ Real.exp 1 := le_of_lt (Real.exp_pos 1)
      rw [h4]
      calc (Real.exp 1) ^ (4 : ℕ) ≤ (2.7182818286 : ℝ) ^ (4 : ℕ) :=
            pow_le_pow_left₀ hpos he 4
        _ ≤ 400 := by norm_num
    have hexp2_le : Real.exp 2 ≤ 400 := by
      have := Real.exp_le_exp.mpr (show (2 : ℝ) ≤ 4 by norm_num)
      linarith
    have h1exp4 : (1 : ℝ) ≤ Real.exp 4 := Real.one_le_exp (by norm_num)
    have h1exp2 : (1 : ℝ) ≤ Real.exp 2 := Real.one_le_exp (by norm_num)
    have hw60 : wifiWeight (-60) = Real.exp 4 := by
      rw [wifiWeight]
      have hc : clampR (-60) (-95) (-35) = -60 := by rw [clampR]; norm_num
      rw [hc, show ((-60 : ℝ) + 100) / 10 = 4 by norm_num, clampR,
        min_eq_right hexp4_le, max_eq_right h1exp4]
    have hw80 : wifiWeight (-80) = Real.exp 2 := by
      rw [wifiWeight]
      have hc : clampR (-80) (-95) (-35) = -80 := by rw [clampR]; norm_num
      rw [hc, show ((-80 : ℝ) + 100) / 10 = 2 by norm_num, clampR,
        min_eq_right hexp2_le, max_eq_right h1exp2]
    have hnaa : normalizeBssid "aa" = "aa" := by decide
    have hnbb : normalizeBssid "bb" = "bb" := by decide
    have hm : matchedReadings [(⟨"aa", -60⟩ : WifiReading), ⟨"bb", -80⟩]
        [⟨"aa", "A", 0, 0, 0, AnchorSource.mock, none⟩,
          ⟨"bb", "B", 10, 0, 0, AnchorSource.mock, none⟩] =
        [⟨"aa", -60⟩, ⟨"bb", -80⟩] := by
      simp [matchedReadings, byBssidGet, List.find?, hnaa, hnbb]
    have hgetaa : byBssidGet
        [⟨"aa", "A", 0, 0, 0, AnchorSource.mock, none⟩,
          ⟨"bb", "B", 10, 0, 0, AnchorSource.mock, none⟩] "aa" =
        some ⟨"aa", "A", 0, 0, 0, AnchorSource.mock, none⟩ := by
      simp [byBssidGet, List.find?, hnaa, hnbb]
    have hgetbb : byBssidGet
        [⟨"aa", "A", 0, 0, 0, AnchorSource.mock, none⟩,
          ⟨"bb", "B", 10, 0, 0, AnchorSource.mock, none⟩] "bb" =
        some ⟨"bb", "B", 10, 0, 0, AnchorSource.mock, none⟩ := by
      simp [byBssidGet, List.find?, hnaa, hnbb]
    have hsums : wifiSums [(⟨"aa", -60⟩ : WifiReading), ⟨"bb", -80⟩]
        [⟨"aa", "A", 0, 0, 0, AnchorSource.mock, none⟩,
          ⟨"bb", "B", 10, 0, 0, AnchorSource.mock, none⟩] =
        (Real.exp 4 + Real.exp 2, 10 * Real.exp 2, 0) := by
      rw [wifiSums, hm]
      simp only [List.foldl_cons, List.foldl_nil, hgetaa, hgetbb, hw60, hw80]
      norm_num
    have hbest : bestReading [(⟨"aa", -60⟩ : WifiReading), ⟨"bb", -80⟩] ⟨"aa", -60⟩ =
        ⟨"aa", -60⟩ := by
      rw [bestReading]
      simp only [List.foldl_cons, List.foldl_nil]
      norm_num
    rw [computeWifiFix_cons hm, hsums, hbest]
    have hy : (0 : ℝ) / (Real.exp 4 + Real.exp 2) = 0 := zero_div _
    simp only [hy]
    rfl

/-- C9 witness: the matched-case part of the theorem applied to the concrete
S3 readings and anchors. -/
theorem computeWifiFix_spec_witness :
    matchedReadings [(⟨"aa", -60⟩ : WifiReading), ⟨"bb", -80⟩]
        [⟨"aa", "A", 0, 0, 0, AnchorSource.mock, none⟩,
          ⟨"bb", "B", 10, 0, 0, AnchorSource.mock, none⟩] =
      ⟨"aa", -60⟩ :: [⟨"bb", -80⟩] ∧
      ∃ fix, computeWifiFix [(⟨"aa", -60⟩ : WifiReading), ⟨"bb", -80⟩]
          [⟨"aa", "A", 0, 0, 0, AnchorSource.mock, none⟩,
            ⟨"bb", "B", 10, 0, 0, AnchorSource.mock, none⟩] = some fix ∧
        fix.matched = ((⟨"aa", -60⟩ : WifiReading) :: [⟨"bb", -80⟩]).length ∧
        fix.x = (wifiSums [(⟨"aa", -60⟩ : WifiReading), ⟨"bb", -80⟩]
            [⟨"aa", "A", 0, 0, 0, AnchorSource.mock, none⟩,
              ⟨"bb", "B", 10, 0, 0, AnchorSource.mock, none⟩]).2.1 /
          (wifiSums [(⟨"aa", -60⟩ : WifiReading), ⟨"bb", -80⟩]
            [⟨"aa", "A", 0, 0, 0, AnchorSource.mock, none⟩,
              ⟨"bb", "B", 10, 0, 0, AnchorSource.mock, none⟩]).1 ∧
        fix.y = (wifiSums [(⟨"aa", -60⟩ : WifiReading), ⟨"bb", -80⟩]
            [⟨"aa", "A", 0, 0, 0, AnchorSource.mock, none⟩,
              ⟨"bb", "B", 10, 0, 0, AnchorSource.mock, none⟩]).2.2 /
          (wifiSums [(⟨"aa", -60⟩ : WifiReading), ⟨"bb", -80⟩]
            [⟨"aa", "A", 0, 0, 0, AnchorSource.mock, none⟩,
              ⟨"bb", "B", 10, 0, 0, AnchorSource.mock, none⟩]).1 ∧
        fix.best ∈ (⟨"aa", -60⟩ : WifiReading) :: [⟨"bb", -80⟩] ∧
        ∀ r ∈ (⟨"aa", -60⟩ : WifiReading) :: [⟨"bb", -80⟩],
          r.level ≤ fix.best.level := by
  have hnaa : normalizeBssid "aa" = "aa" := by decide
  have hnbb : normalizeBssid "bb" = "bb" := by decide
  have hm : matchedReadings [(⟨"aa", -60⟩ : WifiReading), ⟨"bb", -80⟩]
      [⟨"aa", "A", 0, 0, 0, AnchorSource.mock, none⟩,
        ⟨"bb", "B", 10, 0, 0, AnchorSource.mock, none⟩] =
      (⟨"aa", -60⟩ : WifiReading) :: [⟨"bb", -80⟩] := by
    simp [matchedReadings, byBssidGet, List.find?, hnaa, hnbb]
  exact ⟨hm, computeWifiFix_spec.2.1 _ _ _ _ hm⟩

end

/-! ### navigation/storeMap.ts and mapmatching/snapToGraph.ts

The snap distance can be Number.POSITIVE_INFINITY when no candidate exists,
so the distance field of SnapResult lives in EReal; every distance actually
computed from a projection is a coerced real. -/

noncomputable section

/-- Source: storeMap.ts, StoreMapNodeType. -/
inductive StoreMapNodeType
  | entry
  | exit
  | aisle
  | poi
  | walkway
deriving DecidableEq

/-- Source: storeMap.ts, StoreMapNode. -/
structure StoreMapNode where
  id : String
  label : String
  x : ℝ
  y : ℝ
  floor : ℤ
  type : StoreMapNodeType
  sectionId : Option String

/-- Source: storeMap.ts, StoreMapEdge (the source field names are from and
to; from is a Lean keyword, hence fromId and toId). -/
structure StoreMapEdge where
  fromId : String
  toId : String
  distance : Option ℝ
  bidirectional : Option Bool

/-- Source: storeMap.ts, StoreMap. -/
structure StoreMap where
  id : String
  label : String
  gridSize : ℝ
  nodes : List StoreMapNode
  edges : Option (List StoreMapEdge)
  anchors : Option (List StoreMapAnchor)

/-- An edge reference { from, to } as carried in SnapResult and options. -/
structure EdgeId where
  fromId : String
  toId : String
deriving DecidableEq

/-- Source: snapToGraph.ts, SnapResult. -/
structure SnapResult where
  snapped : Point2
  distance : EReal
  edge : Option EdgeId
  t : ℝ

/-- Source: snapToGraph.ts, nodeById builds a Map from the node list, so the
last node with a given id wins; lookup is the first match in the reversed
list. -/
def nodeById (map : StoreMap) (id : String) : Option StoreMapNode :=
  map.nodes.reverse.find? (fun n => n.id = id)

/-- Source: snapToGraph.ts, isUsableEdge = (e.distance ?? 0) > 1e-6 or
e.bidirectional !== false. -/
def isUsableEdge (e : StoreMapEdge) : Prop :=
  (1 / 1000000 : ℝ) < e.distance.getD 0 ∨ e.bidirectional ≠ some false

open scoped Classical in
/-- Source: snapToGraph.ts, edges = (map.edges ?? []).filter(isUsableEdge). -/
def usableEdges (map : StoreMap) : List StoreMapEdge :=
  (map.edges.getD []).filter fun e => decide (isUsableEdge e)

/-- Whether an edge equals the previous edge in either orientation
(snapToGraph.ts, isPrev; false when there is no previous edge). -/
def isPrevEdge (prev : Option EdgeId) (edgeId : EdgeId) : Prop :=
  match prev with
  | none => False
  | some pe =>
      (pe.fromId = edgeId.fromId ∧ pe.toId = edgeId.toId) ∨
        (pe.fromId = edgeId.toId ∧ pe.toId = edgeId.fromId)

/-- Whether an edge shares an endpoint with the previous edge
(snapToGraph.ts, isConnectedToPrev; false when there is no previous edge). -/
def isConnectedToPrevEdge (prev : Option EdgeId) (edgeId : EdgeId) : Prop :=
  match prev with
  | none => False
  | some pe =>
      pe.fromId = edgeId.fromId ∨ pe.fromId = edgeId.toId ∨
        pe.toId = edgeId.fromId ∨ pe.toId = edgeId.toId

open scoped Classical in
/-- Source: snapToGraph.ts, the per-edge penalty: 0 on the previous edge,
0.08 on an edge sharing an endpoint with it, else switchPenaltyMeters. -/
def edgePenalty (prev : Option EdgeId) (switchPenaltyMeters : ℝ) (edgeId : EdgeId) : ℝ :=
  if isPrevEdge prev edgeId then 0
  else if isConnectedToPrevEdge prev edgeId then 8 / 100
  else switchPenaltyMeters

open scoped Classical in
/-- Source: snapToGraph.ts, the loop body of bestOnEdges.  The accumulator
carries the pair (best, bestScore); the source initializes bestScore to
Infinity but only reads it once best is non-null, so the empty accumulator
is modelled as none.  Edges whose endpoints are unknown are skipped. -/
def snapStep (map : StoreMap) (point : Point2) (prev : Option EdgeId)
    (switchPenaltyMeters : ℝ) (acc : Option (SnapResult × ℝ)) (e : StoreMapEdge) :
    Option (SnapResult × ℝ) :=
  match nodeById map e.fromId, nodeById map e.toId with
  | some a, some b =>
      let proj := projectPointToSegment point ⟨a.x, a.y⟩ ⟨b.x, b.y⟩
      let edgeId : EdgeId := ⟨e.fromId, e.toId⟩
      let score := proj.distance + edgePenalty prev switchPenaltyMeters edgeId
      match acc with
      | none =>
          some (⟨proj.point, (proj.distance : EReal), some edgeId, proj.t⟩, score)
      | some (b0, bs) =>
          if score < bs then
            some (⟨proj.point, (proj.distance : EReal), some edgeId, proj.t⟩, score)
          else some (b0, bs)
  | _, _ => acc

/-- Source: snapToGraph.ts, bestOnEdges. -/
def bestOnEdges (map : StoreMap) (point : Point2) (prev : Option EdgeId)
    (switchPenaltyMeters : ℝ) (candidateEdges : List StoreMapEdge) :
    Option SnapResult :=
  (candidateEdges.foldl (snapStep map point prev switchPenaltyMeters) none).map
    Prod.fst

open scoped Classical in
/-- Source: snapToGraph.ts, the hard-clamp candidate restriction: edges
incident to an endpoint of the previous edge. -/
def connectedEdges (map : StoreMap) (pe : EdgeId) : List StoreMapEdge :=
  (usableEdges map).filter fun e =>
    decide (e.fromId = pe.fromId ∨ e.fromId = pe.toId ∨
      e.toId = pe.fromId ∨ e.toId = pe.toId)

open scoped Classical in
/-- Source: snapToGraph.ts, snapToGraph (defaults: maxSnapMeters 1.75,
previousEdge null, switchPenaltyMeters 0.35, hardClamp false; relocalization
thresholds 2.25 * maxSnapMeters and 0.2). -/
def snapToGraph (map : StoreMap) (point : Point2)
    (maxSnapMetersOpt : Option ℝ) (previousEdgeOpt : Option EdgeId)
    (switchPenaltyMetersOpt : Option ℝ) (hardClampOpt : Option Bool) : SnapResult :=
  let maxSnapMeters := maxSnapMetersOpt.getD (7 / 4)
  let prev := previousEdgeOpt
  let switchPenaltyMeters := switchPenaltyMetersOpt.getD (7 / 20)
  let hardClamp := hardClampOpt.getD false
  let edges := usableEdges map
  let best : Option SnapResult :=
    match hardClamp, prev with
    | true, some pe =>
        let bestConnected :=
          bestOnEdges map point prev switchPenaltyMeters (connectedEdges map pe)
        let bestGlobal := bestOnEdges map point prev switchPenaltyMeters edges
        match bestConnected, bestGlobal with
        | some bc, some bg =>
            if ((maxSnapMeters * (9 / 4) : ℝ) : EReal) < bc.distance ∧
                bg.distance + ((1 / 5 : ℝ) : EReal) < bc.distance then
              some bg
            else some bc
        | some bc, none => some bc
        | none, bg => bg
    | _, _ => bestOnEdges map point prev switchPenaltyMeters edges
  match best with
  | none => ⟨point, (⊤ : EReal), none, 0⟩
  | some b =>
      if hardClamp = false ∧ ((maxSnapMeters : ℝ) : EReal) < b.distance then
        ⟨point, b.distance, b.edge, b.t⟩
      else b

lemma quad_clamp_min (A B : ℝ) (hA : 0 < A) (s : ℝ) (hs0 : 0 ≤ s) (hs1 : s ≤ 1) :
    A * clampR (B / A) 0 1 ^ 2 - 2 * B * clampR (B / A) 0 1 ≤
      A * s ^ 2 - 2 * B * s := by
  rw [clampR]
  by_cases h1 : B / A < 0
  · have hB : B < 0 := by
      by_contra hB
      exact absurd (div_nonneg (le_of_not_lt hB) (le_of_lt hA)) (not_le.mpr h1)
    rw [min_eq_right (le_of_lt (lt_of_lt_of_le h1 (by norm_num))),
      max_eq_left (le_of_lt h1)]
    nlinarith
  · have hge : 0 ≤ B / A := le_of_not_lt h1
    have hB0 : 0 ≤ B := by
      by_contra hB
      exact absurd (div_neg_of_neg_of_pos (lt_of_not_le hB) hA) (not_lt.mpr hge)
    by_cases h2 : 1 < B / A
    · have hAB : A < B := by
        have := (one_lt_div hA).mp h2
        linarith
      rw [min_eq_left (le_of_lt h2), max_eq_right (by norm_num : (0 : ℝ) ≤ 1)]
      have hfac : 0 ≤ (1 - s) * (2 * B - A * (1 + s)) :=
        mul_nonneg (by linarith) (by nlinarith)
      nlinarith [hfac]
    · have hle : B / A ≤ 1 := le_of_not_lt h2
      rw [min_eq_right hle, max_eq_right hge]
      have key : A * (B / A) ^ 2 - 2 * B * (B / A) = -(B ^ 2) / A := by
        field_simp
        ring
      rw [key, div_le_iff hA]
      nlinarith [sq_nonneg (A * s - B)]

lemma projectPointToSegment_le (p a b : Point2)
    (hd : (1 / 1000000000 : ℝ) <
      (b.x - a.x) * (b.x - a.x) + (b.y - a.y) * (b.y - a.y)) :
    (projectPointToSegment p a b).distance ≤ dist p a ∧
      (projectPointToSegment p a b).distance ≤ dist p b := by
  have hA : 0 < (b.x - a.x) * (b.x - a.x) + (b.y - a.y) * (b.y - a.y) :=
    lt_trans (by norm_num) hd
  simp only [projectPointToSegment]
  rw [if_neg (not_le.mpr hd)]
  constructor
  · apply Real.sqrt_le_sqrt
    have h0 := quad_clamp_min
      ((b.x - a.x) * (b.x - a.x) + (b.y - a.y) * (b.y - a.y))
      ((p.x - a.x) * (b.x - a.x) + (p.y - a.y) * (b.y - a.y)) hA 0
      (le_refl 0) (by norm_num)
    have hdista : dist p a = Real.sqrt ((p.x - a.x) ^ 2 + (p.y - a.y) ^ 2) := rfl
    nlinarith [h0]
  · apply Real.sqrt_le_sqrt
    have h1 := quad_clamp_min
      ((b.x - a.x) * (b.x - a.x) + (b.y - a.y) * (b.y - a.y))
      ((p.x - a.x) * (b.x - a.x) + (p.y - a.y) * (b.y - a.y)) hA 1
      (by norm_num) (le_refl 1)
    nlinarith [h1]

lemma edgePenalty_none (sp : ℝ) (eid : EdgeId) : edgePenalty none sp eid = sp := by
  rw [edgePenalty, if_neg (by simp [isPrevEdge]), if_neg (by simp [isConnectedToPrevEdge])]

lemma snapStep_of_some (map : StoreMap) (point : Point2) (prev : Option EdgeId)
    (sp : ℝ) (e : StoreMapEdge) (pr : SnapResult × ℝ) :
    ∃ pr', snapStep map point prev sp (some pr) e = some pr' ∧ pr'.2 ≤ pr.2 := by
  obtain ⟨r0, s0⟩ := pr
  rw [snapStep]
  cases hfa : nodeById map e.fromId with
  | none => exact ⟨(r0, s0), rfl, le_refl _⟩
  | some a =>
      cases hfb : nodeById map e.toId with
      | none => exact ⟨(r0, s0), rfl, le_refl _⟩
      | some b =>
          simp only []
          by_cases hlt :
              (projectPointToSegment point ⟨a.x, a.y⟩ ⟨b.x, b.y⟩).distance +
                edgePenalty prev sp ⟨e.fromId, e.toId⟩ < s0
          · refine ⟨(⟨(projectPointToSegment point ⟨a.x, a.y⟩ ⟨b.x, b.y⟩).point,
              ((projectPointToSegment point ⟨a.x, a.y⟩ ⟨b.x, b.y⟩).distance : EReal),
              some ⟨e.fromId, e.toId⟩,
              (projectPointToSegment point ⟨a.x, a.y⟩ ⟨b.x, b.y⟩).t⟩,
              (projectPointToSegment point ⟨a.x, a.y⟩ ⟨b.x, b.y⟩).distance +
                edgePenalty prev sp ⟨e.fromId, e.toId⟩), ?_, le_of_lt hlt⟩
            rw [if_pos hlt]
          · refine ⟨(r0, s0), ?_, le_refl _⟩
            rw [if_neg hlt]

lemma snapStep_le_score (map : StoreMap) (point : Point2) (prev : Option EdgeId)
    (sp : ℝ) (e : StoreMapEdge) (acc : Option (SnapResult × ℝ))
    (a b : StoreMapNode) (hfa : nodeById map e.fromId = some a)
    (hfb : nodeById map e.toId = some b) :
    ∃ pr', snapStep map point prev sp acc e = some pr' ∧
      pr'.2 ≤ (projectPointToSegment point ⟨a.x, a.y⟩ ⟨b.x, b.y⟩).distance +
        edgePenalty prev sp ⟨e.fromId, e.toId⟩ := by
  rw [snapStep, hfa, hfb]
  cases acc with
  | none => exact ⟨_, rfl, le_refl _⟩
  | some pr =>
      obtain ⟨r0, s0⟩ := pr
      simp only []
      by_cases hlt :
          (projectPointToSegment point ⟨a.x, a.y⟩ ⟨b.x, b.y⟩).distance +
            edgePenalty prev sp ⟨e.fromId, e.toId⟩ < s0
      · refine ⟨(⟨(projectPointToSegment point ⟨a.x, a.y⟩ ⟨b.x, b.y⟩).point,
          ((projectPointToSegment point ⟨a.x, a.y⟩ ⟨b.x, b.y⟩).distance : EReal),
          some ⟨e.fromId, e.toId⟩,
          (projectPointToSegment point ⟨a.x, a.y⟩ ⟨b.x, b.y⟩).t⟩,
          (projectPointToSegment point ⟨a.x, a.y⟩ ⟨b.x, b.y⟩).distance +
            edgePenalty prev sp ⟨e.fromId, e.toId⟩), ?_, le_refl _⟩
        rw [if_pos hlt]
      · refine ⟨(r0, s0), ?_, le_of_not_lt hlt⟩
        rw [if_neg hlt]

lemma foldl_snapStep_mono (map : StoreMap) (point : Point2) (prev : Option EdgeId)
    (sp : ℝ) : ∀ (l : List StoreMapEdge) (pr : SnapResult × ℝ),
    ∃ pr', l.foldl (snapStep map point prev sp) (some pr) = some pr' ∧ pr'.2 ≤ pr.2 := by
  intro l
  induction l with
  | nil => exact fun pr => ⟨pr, rfl, le_refl _⟩
  | cons e rest ih =>
      intro pr
      obtain ⟨pr0, h0, hle0⟩ := snapStep_of_some map point prev sp e pr
      obtain ⟨pr', h', hle'⟩ := ih pr0
      refine ⟨pr', ?_, le_trans hle' hle0⟩
      rw [List.foldl_cons, h0, h']

lemma foldl_snapStep_le (map : StoreMap) (point : Point2) (prev : Option EdgeId)
    (sp : ℝ) : ∀ (l : List StoreMapEdge) (acc : Option (SnapResult × ℝ))
    (e : StoreMapEdge), e ∈ l → ∀ (a b : StoreMapNode),
    nodeById map e.fromId = some a → nodeById map e.toId = some b →
    ∃ pr', l.foldl (snapStep map point prev sp) acc = some pr' ∧
      pr'.2 ≤ (projectPointToSegment point ⟨a.x, a.y⟩ ⟨b.x, b.y⟩).distance +
        edgePenalty prev sp ⟨e.fromId, e.toId⟩ := by
  intro l
  induction l with
  | nil => intro acc e he; exact absurd he (List.not_mem_nil e)
  | cons e0 rest ih =>
      intro acc e he a b hfa hfb
      rcases List.mem_cons.mp he with rfl | he2
      · obtain ⟨pr0, h0, hle0⟩ := snapStep_le_score map point prev sp e acc a b hfa hfb
        obtain ⟨pr', h', hle'⟩ := foldl_snapStep_mono map point prev sp rest pr0
        refine ⟨pr', ?_, le_trans hle' hle0⟩
        rw [List.foldl_cons, h0, h']
      · obtain ⟨pr', h', hle'⟩ :=
          ih (snapStep map point prev sp acc e0) e he2 a b hfa hfb
        exact ⟨pr', by rw [List.foldl_cons]; exact h', hle'⟩

lemma foldl_snapStep_shape (map : StoreMap) (point : Point2) (sp : ℝ) :
    ∀ (l : List StoreMapEdge) (acc : Option (SnapResult × ℝ)),
    (∀ pr, acc = some pr → ∃ d : ℝ, pr.1.distance = (d : EReal) ∧ pr.2 = d + sp) →
    ∀ pr', l.foldl (snapStep map point none sp) acc = some pr' →
      ∃ d : ℝ, pr'.1.distance = (d : EReal) ∧ pr'.2 = d + sp := by
  intro l
  induction l with
  | nil =>
      intro acc hacc pr' h'
      exact hacc pr' (by simpa using h')
  | cons e rest ih =>
      intro acc hacc pr' h'
      rw [List.foldl_cons] at h'
      refine ih (snapStep map point none sp acc e) ?_ pr' h'
      intro pr hpr
      rw [snapStep] at hpr
      cases hfa : nodeById map e.fromId with
      | none =>
          rw [hfa] at hpr
          exact hacc pr hpr
      | some a =>
          cases hfb : nodeById map e.toId with
          | none =>
              rw [hfa, hfb] at hpr
              exact hacc pr hpr
          | some b =>
              rw [hfa, hfb] at hpr
              cases acc with
              | none =>
                  simp only [Option.some.injEq] at hpr
                  refine ⟨(projectPointToSegment point ⟨a.x, a.y⟩ ⟨b.x, b.y⟩).distance,
                    ?_, ?_⟩
                  · rw [← hpr]
                  · rw [← hpr]
                    simp only []
                    rw [edgePenalty_none]
              | some prOld =>
                  obtain ⟨rOld, sOld⟩ := prOld
                  simp only [] at hpr
                  by_cases hlt :
                      (projectPointToSegment point ⟨a.x, a.y⟩ ⟨b.x, b.y⟩).distance +
                        edgePenalty none sp ⟨e.fromId, e.toId⟩ < sOld
                  · rw [if_pos hlt] at hpr
                    simp only [Option.some.injEq] at hpr
                    refine ⟨(projectPointToSegment point ⟨a.x, a.y⟩ ⟨b.x, b.y⟩).distance,
                      ?_, ?_⟩
                    · rw [← hpr]
                    · rw [← hpr]
                      simp only []
                      rw [edgePenalty_none]
                  · rw [if_neg hlt] at hpr
                    simp only [Option.some.injEq] at hpr
                    rw [← hpr]
                    exact hacc (rOld, sOld) rfl

/-- C1 (amended): with no previous edge set, the snapped result distance is
within 1e-6 of the distance from the query point to each endpoint of any
usable edge whose endpoints are known nodes and whose squared length exceeds
the 1e-9 degeneracy guard; this holds for any maxSnapMeters, any
switchPenaltyMeters and hardClamp on or off. -/
theorem snapToGraph_endpoint_bound (map : StoreMap) (point : Point2)
    (maxSnapOpt spOpt : Option ℝ) (hcOpt : Option Bool)
    (e : StoreMapEdge) (a b : StoreMapNode)
    (hmem : e ∈ map.edges.getD []) (hus : isUsableEdge e)
    (hfa : nodeById map e.fromId = some a) (hfb : nodeById map e.toId = some b)
    (hdeg : (1 / 1000000000 : ℝ) <
      (b.x - a.x) * (b.x - a.x) + (b.y - a.y) * (b.y - a.y)) :
    (snapToGraph map point maxSnapOpt none spOpt hcOpt).distance ≤
        ((dist point ⟨a.x, a.y⟩ + 1 / 1000000 : ℝ) : EReal) ∧
      (snapToGraph map point maxSnapOpt none spOpt hcOpt).distance ≤
        ((dist point ⟨b.x, b.y⟩ + 1 / 1000000 : ℝ) : EReal) := by
  have he' : e ∈ usableEdges map := by
    rw [usableEdges]
    exact List.mem_filter.mpr ⟨hmem, by simpa using hus⟩
  obtain ⟨pr, hfold, hle⟩ := foldl_snapStep_le map point none (spOpt.getD (7 / 20))
    (usableEdges map) none e he' a b hfa hfb
  obtain ⟨d, hd1, hd2⟩ := foldl_snapStep_shape map point (spOpt.getD (7 / 20))
    (usableEdges map) none (by intro pr h; simp at h) pr hfold
  have hdd : d ≤ (projectPointToSegment point ⟨a.x, a.y⟩ ⟨b.x, b.y⟩).distance := by
    rw [hd2, edgePenalty_none] at hle
    linarith
  obtain ⟨hpa, hpb⟩ := projectPointToSegment_le point ⟨a.x, a.y⟩ ⟨b.x, b.y⟩ hdeg
  have hbest : bestOnEdges map point none (spOpt.getD (7 / 20)) (usableEdges map) =
      some pr.1 := by
    rw [bestOnEdges, hfold]
    rfl
  have hresult : (snapToGraph map point maxSnapOpt none spOpt hcOpt).distance =
      (d : EReal) := by
    cases hhc : hcOpt.getD false with
    | false =>
        simp only [snapToGraph, hhc, hbest]
        split_ifs <;> exact hd1
    | true =>
        simp only [snapToGraph, hhc, hbest]
        split_ifs <;> exact hd1
  rw [hresult]
  constructor <;> rw [EReal.coe_le_coe_iff]
  · linarith
  · linarith

/-- C1 witness: the endpoint bound theorem applied to a concrete one-edge
map with the query point at the first endpoint. -/
theorem snapToGraph_endpoint_bound_witness :
    (snapToGraph
        ⟨"m", "M", 1,
          [⟨"n1", "N1", 0, 0, 0, StoreMapNodeType.walkway, none⟩,
            ⟨"n2", "N2", 10, 0, 0, StoreMapNodeType.walkway, none⟩],
          some [⟨"n1", "n2", some 10, none⟩], none⟩
        ⟨0, 0⟩ none none none none).distance ≤
      ((dist ⟨0, 0⟩ ⟨(0 : ℝ), (0 : ℝ)⟩ + 1 / 1000000 : ℝ) : EReal) := by
  have hfa : nodeById
      ⟨"m", "M", 1,
        [⟨"n1", "N1", 0, 0, 0, StoreMapNodeType.walkway, none⟩,
          ⟨"n2", "N2", 10, 0, 0, StoreMapNodeType.walkway, none⟩],
        some [⟨"n1", "n2", some 10, none⟩], none⟩ "n1" =
      some ⟨"n1", "N1", 0, 0, 0, StoreMapNodeType.walkway, none⟩ := by
    simp [nodeById, List.find?]
  have hfb : nodeById
      ⟨"m", "M", 1,
        [⟨"n1", "N1", 0, 0, 0, StoreMapNodeType.walkway, none⟩,
          ⟨"n2", "N2", 10, 0, 0, StoreMapNodeType.walkway, none⟩],
        some [⟨"n1", "n2", some 10, none⟩], none⟩ "n2" =
      some ⟨"n2", "N2", 10, 0, 0, StoreMapNodeType.walkway, none⟩ := by
    simp [nodeById, List.find?]
  exact (snapToGraph_endpoint_bound _ ⟨0, 0⟩ none none none
    ⟨"n1", "n2", some 10, none⟩ _ _ (by simp) (Or.inl (by norm_num)) hfa hfb
    (by norm_num)).1

lemma projectPointToSegment_eval (p a b : Point2) (t0 d0 : ℝ)
    (hden : ¬((b.x - a.x) * (b.x - a.x) + (b.y - a.y) * (b.y - a.y) ≤ 1 / 1000000000))
    (ht : clampR (((p.x - a.x) * (b.x - a.x) + (p.y - a.y) * (b.y - a.y)) /
      ((b.x - a.x) * (b.x - a.x) + (b.y - a.y) * (b.y - a.y))) 0 1 = t0)
    (hd0 : 0 ≤ d0)
    (hd : (p.x - (a.x + (b.x - a.x) * t0)) ^ 2 +
      (p.y - (a.y + (b.y - a.y) * t0)) ^ 2 = d0 ^ 2) :
    projectPointToSegment p a b =
      ⟨t0, ⟨a.x + (b.x - a.x) * t0, a.y + (b.y - a.y) * t0⟩, d0⟩ := by
  simp only [projectPointToSegment]
  rw [if_neg hden, ht, hd, Real.sqrt_sq hd0]

/-- C1 counterexample: with a previous edge set, the switch penalty makes the
snapper keep the previous corridor (distance 0.3) even though an endpoint of
the other edge of the map is at distance 0.05 from the query point, so the
claimed bound result.distance <= distance-to-endpoint + 1e-6 fails. -/
theorem snapToGraph_endpoint_bound_claim_false :
    (⟨"Q1", "Q2", none, none⟩ : StoreMapEdge) ∈
        ((⟨"m", "M", 1,
            [⟨"P1", "P1", 0, 3 / 10, 0, StoreMapNodeType.walkway, none⟩,
              ⟨"P2", "P2", 10, 3 / 10, 0, StoreMapNodeType.walkway, none⟩,
              ⟨"Q1", "Q1", 0, -(1 / 20), 0, StoreMapNodeType.walkway, none⟩,
              ⟨"Q2", "Q2", 10, -(1 / 20), 0, StoreMapNodeType.walkway, none⟩],
            some [⟨"P1", "P2", none, none⟩, ⟨"Q1", "Q2", none, none⟩],
            none⟩ : StoreMap).edges.getD []) ∧
      nodeById
          ⟨"m", "M", 1,
            [⟨"P1", "P1", 0, 3 / 10, 0, StoreMapNodeType.walkway, none⟩,
              ⟨"P2", "P2", 10, 3 / 10, 0, StoreMapNodeType.walkway, none⟩,
              ⟨"Q1", "Q1", 0, -(1 / 20), 0, StoreMapNodeType.walkway, none⟩,
              ⟨"Q2", "Q2", 10, -(1 / 20), 0, StoreMapNodeType.walkway, none⟩],
            some [⟨"P1", "P2", none, none⟩, ⟨"Q1", "Q2", none, none⟩],
            none⟩ "Q1" =
        some ⟨"Q1", "Q1", 0, -(1 / 20), 0, StoreMapNodeType.walkway, none⟩ ∧
      ¬((snapToGraph
            ⟨"m", "M", 1,
              [⟨"P1", "P1", 0, 3 / 10, 0, StoreMapNodeType.walkway, none⟩,
                ⟨"P2", "P2", 10, 3 / 10, 0, StoreMapNodeType.walkway, none⟩,
                ⟨"Q1", "Q1", 0, -(1 / 20), 0, StoreMapNodeType.walkway, none⟩,
                ⟨"Q2", "Q2", 10, -(1 / 20), 0, StoreMapNodeType.walkway, none⟩],
              some [⟨"P1", "P2", none, none⟩, ⟨"Q1", "Q2", none, none⟩],
              none⟩
            ⟨0, 0⟩ none (some ⟨"P1", "P2"⟩) none none).distance ≤
          ((dist ⟨0, 0⟩ ⟨(0 : ℝ), -(1 / 20)⟩ + 1 / 1000000 : ℝ) : EReal)) := by
  refine ⟨by simp, by simp [nodeById, List.find?], ?_⟩
  have hfaP : nodeById
      ⟨"m", "M", 1,
        [⟨"P1", "P1", 0, 3 / 10, 0, StoreMapNodeType.walkway, none⟩,
          ⟨"P2", "P2", 10, 3 / 10, 0, StoreMapNodeType.walkway, none⟩,
          ⟨"Q1", "Q1", 0, -(1 / 20), 0, StoreMapNodeType.walkway, none⟩,
          ⟨"Q2", "Q2", 10, -(1 / 20), 0, StoreMapNodeType.walkway, none⟩],
        some [⟨"P1", "P2", none, none⟩, ⟨"Q1", "Q2", none, none⟩], none⟩ "P1" =
      some ⟨"P1", "P1", 0, 3 / 10, 0, StoreMapNodeType.walkway, none⟩ := by
    simp [nodeById, List.find?]
  have hfbP : nodeById
      ⟨"m", "M", 1,
        [⟨"P1", "P1", 0, 3 / 10, 0, StoreMapNodeType.walkway, none⟩,
          ⟨"P2", "P2", 10, 3 / 10, 0, StoreMapNodeType.walkway, none⟩,
          ⟨"Q1", "Q1", 0, -(1 / 20), 0, StoreMapNodeType.walkway, none⟩,
          ⟨"Q2", "Q2", 10, -(1 / 20), 0, StoreMapNodeType.walkway, none⟩],
        some [⟨"P1", "P2", none, none⟩, ⟨"Q1", "Q2", none, none⟩], none⟩ "P2" =
      some ⟨"P2", "P2", 10, 3 / 10, 0, StoreMapNodeType.walkway, none⟩ := by
    simp [nodeById, List.find?]
  have hfaQ : nodeById
      ⟨"m", "M", 1,
        [⟨"P1", "P1", 0, 3 / 10, 0, StoreMapNodeType.walkway, none⟩,
          ⟨"P2", "P2", 10, 3 / 10, 0, StoreMapNodeType.walkway, none⟩,
          ⟨"Q1", "Q1", 0, -(1 / 20), 0, StoreMapNodeType.walkway, none⟩,
          ⟨"Q2", "Q2", 10, -(1 / 20), 0, StoreMapNodeType.walkway, none⟩],
        some [⟨"P1", "P2", none, none⟩, ⟨"Q1", "Q2", none, none⟩], none⟩ "Q1" =
      some ⟨"Q1", "Q1", 0, -(1 / 20), 0, StoreMapNodeType.walkway, none⟩ := by
    simp [nodeById, List.find?]
  have hfbQ : nodeById
      ⟨"m", "M", 1,
        [⟨"P1", "P1", 0, 3 / 10, 0, StoreMapNodeType.walkway, none⟩,
          ⟨"P2", "P2", 10, 3 / 10, 0, StoreMapNodeType.walkway, none⟩,
          ⟨"Q1", "Q1", 0, -(1 / 20), 0, StoreMapNodeType.walkway, none⟩,
          ⟨"Q2", "Q2", 10, -(1 / 20), 0, StoreMapNodeType.walkway, none⟩],
        some [⟨"P1", "P2", none, none⟩, ⟨"Q1", "Q2", none, none⟩], none⟩ "Q2" =
      some ⟨"Q2", "Q2", 10, -(1 / 20), 0, StoreMapNodeType.walkway, none⟩ := by
    simp [nodeById, List.find?]
  have hprojP : projectPointToSegment ⟨0, 0⟩ ⟨0, 3 / 10⟩ ⟨10, 3 / 10⟩ =
      ⟨0, ⟨0 + (10 - 0) * 0, 3 / 10 + (3 / 10 - 3 / 10) * 0⟩, 3 / 10⟩ :=
    projectPointToSegment_eval _ _ _ 0 (3 / 10) (by norm_num)
      (by rw [clampR]; norm_num) (by norm_num) (by norm_num)
  have hprojQ : projectPointToSegment ⟨0, 0⟩ ⟨0, -(1 / 20)⟩ ⟨10, -(1 / 20)⟩ =
      ⟨0, ⟨0 + (10 - 0) * 0, -(1 / 20) + (-(1 / 20) - -(1 / 20)) * 0⟩, 1 / 20⟩ :=
    projectPointToSegment_eval _ _ _ 0 (1 / 20) (by norm_num)
      (by rw [clampR]; norm_num) (by norm_num) (by norm_num)
  have hpenP : edgePenalty (some ⟨"P1", "P2"⟩) (7 / 20) ⟨"P1", "P2"⟩ = 0 := by
    simp [edgePenalty, isPrevEdge]
  have hpenQ : edgePenalty (some ⟨"P1", "P2"⟩) (7 / 20) ⟨"Q1", "Q2"⟩ = 7 / 20 := by
    simp [edgePenalty, isPrevEdge, isConnectedToPrevEdge]
  have husable : usableEdges
      ⟨"m", "M", 1,
        [⟨"P1", "P1", 0, 3 / 10, 0, StoreMapNodeType.walkway, none⟩,
          ⟨"P2", "P2", 10, 3 / 10, 0, StoreMapNodeType.walkway, none⟩,
          ⟨"Q1", "Q1", 0, -(1 / 20), 0, StoreMapNodeType.walkway, none⟩,
          ⟨"Q2", "Q2", 10, -(1 / 20), 0, StoreMapNodeType.walkway, none⟩],
        some [⟨"P1", "P2", none, none⟩, ⟨"Q1", "Q2", none, none⟩], none⟩ =
      [⟨"P1", "P2", none, none⟩, ⟨"Q1", "Q2", none, none⟩] := by
    rw [usableEdges]
    refine List.filter_eq_self.mpr ?_
    intro e he
    simp only [Option.getD_some, List.mem_cons, List.not_mem_nil, or_false] at he
    rcases he with rfl | rfl <;> simp [isUsableEdge]
  have hstep1 : snapStep
      ⟨"m", "M", 1,
        [⟨"P1", "P1", 0, 3 / 10, 0, StoreMapNodeType.walkway, none⟩,
          ⟨"P2", "P2", 10, 3 / 10, 0, StoreMapNodeType.walkway, none⟩,
          ⟨"Q1", "Q1", 0, -(1 / 20), 0, StoreMapNodeType.walkway, none⟩,
          ⟨"Q2", "Q2", 10, -(1 / 20), 0, StoreMapNodeType.walkway, none⟩],
        some [⟨"P1", "P2", none, none⟩, ⟨"Q1", "Q2", none, none⟩], none⟩
      ⟨0, 0⟩ (some ⟨"P1", "P2"⟩) (7 / 20) none ⟨"P1", "P2", none, none⟩ =
      some (⟨⟨0 + (10 - 0) * 0, 3 / 10 + (3 / 10 - 3 / 10) * 0⟩,
        ((3 / 10 : ℝ) : EReal), some ⟨"P1", "P2"⟩, 0⟩, 3 / 10 + 0) := by
    rw [snapStep, hfaP, hfbP]
    simp only [hprojP, hpenP]
  have hstep2 : snapStep
      ⟨"m", "M", 1,
        [⟨"P1", "P1", 0, 3 / 10, 0, StoreMapNodeType.walkway, none⟩,
          ⟨"P2", "P2", 10, 3 / 10, 0, StoreMapNodeType.walkway, none⟩,
          ⟨"Q1", "Q1", 0, -(1 / 20), 0, StoreMapNodeType.walkway, none⟩,
          ⟨"Q2", "Q2", 10, -(1 / 20), 0, StoreMapNodeType.walkway, none⟩],
        some [⟨"P1", "P2", none, none⟩, ⟨"Q1", "Q2", none, none⟩], none⟩
      ⟨0, 0⟩ (some ⟨"P1", "P2"⟩) (7 / 20)
      (some (⟨⟨0 + (10 - 0) * 0, 3 / 10 + (3 / 10 - 3 / 10) * 0⟩,
        ((3 / 10 : ℝ) : EReal), some ⟨"P1", "P2"⟩, 0⟩, 3 / 10 + 0))
      ⟨"Q1", "Q2", none, none⟩ =
      some (⟨⟨0 + (10 - 0) * 0, 3 / 10 + (3 / 10 - 3 / 10) * 0⟩,
        ((3 / 10 : ℝ) : EReal), some ⟨"P1", "P2"⟩, 0⟩, 3 / 10 + 0) := by
    rw [snapStep, hfaQ, hfbQ]
    simp only [hprojQ, hpenQ]
    rw [if_neg (by norm_num)]
  have hbest : bestOnEdges
      ⟨"m", "M", 1,
        [⟨"P1", "P1", 0, 3 / 10, 0, StoreMapNodeType.walkway, none⟩,
          ⟨"P2", "P2", 10, 3 / 10, 0, StoreMapNodeType.walkway, none⟩,
          ⟨"Q1", "Q1", 0, -(1 / 20), 0, StoreMapNodeType.walkway, none⟩,
          ⟨"Q2", "Q2", 10, -(1 / 20), 0, StoreMapNodeType.walkway, none⟩],
        some [⟨"P1", "P2", none, none⟩, ⟨"Q1", "Q2", none, none⟩], none⟩
      ⟨0, 0⟩ (some ⟨"P1", "P2"⟩) (7 / 20)
      [⟨"P1", "P2", none, none⟩, ⟨"Q1", "Q2", none, none⟩] =
      some ⟨⟨0 + (10 - 0) * 0, 3 / 10 + (3 / 10 - 3 / 10) * 0⟩,
        ((3 / 10 : ℝ) : EReal), some ⟨"P1", "P2"⟩, 0⟩ := by
    rw [bestOnEdges, List.foldl_cons, hstep1, List.foldl_cons, hstep2, List.foldl_nil]
    rfl
  have hdistq : dist ⟨0, 0⟩ ⟨(0 : ℝ), -(1 / 20)⟩ = 1 / 20 := by
    rw [dist]
    rw [show ((0 : ℝ) - 0) ^ 2 + ((0 : ℝ) - -(1 / 20)) ^ 2 = (1 / 20) ^ 2 by norm_num,
      Real.sqrt_sq (by norm_num : (0 : ℝ) ≤ 1 / 20)]
  have hresult : (snapToGraph
      ⟨"m", "M", 1,
        [⟨"P1", "P1", 0, 3 / 10, 0, StoreMapNodeType.walkway, none⟩,
          ⟨"P2", "P2", 10, 3 / 10, 0, StoreMapNodeType.walkway, none⟩,
          ⟨"Q1", "Q1", 0, -(1 / 20), 0, StoreMapNodeType.walkway, none⟩,
          ⟨"Q2", "Q2", 10, -(1 / 20), 0, StoreMapNodeType.walkway, none⟩],
        some [⟨"P1", "P2", none, none⟩, ⟨"Q1", "Q2", none, none⟩], none⟩
      ⟨0, 0⟩ none (some ⟨"P1", "P2"⟩) none none).distance = ((3 / 10 : ℝ) : EReal) := by
    simp only [snapToGraph, Option.getD_none, Option.getD_some, husable, hbest]
    rw [if_neg ?_]
    rintro ⟨-, habs⟩
    rw [EReal.coe_lt_coe_iff] at habs
    norm_num at habs
  rw [hresult, hdistq]
  rw [not_le, EReal.coe_lt_coe_iff]
  norm_num

/-- C7: with hardClamp set and a previous edge, snapToGraph restricts the
candidates to edges incident to an endpoint of the previous edge, and when
both a connected best and a global best exist it returns the global best
exactly when bestConnected.distance > 2.25 * maxSnapMeters and
bestGlobal.distance + 0.2 < bestConnected.distance, else the connected
best. -/
theorem snapToGraph_hardClamp_rule (map : StoreMap) (point : Point2)
    (maxSnapOpt spOpt : Option ℝ) (pe : EdgeId) (bc bg : SnapResult)
    (hbc : bestOnEdges map point (some pe) (spOpt.getD (7 / 20))
      (connectedEdges map pe) = some bc)
    (hbg : bestOnEdges map point (some pe) (spOpt.getD (7 / 20))
      (usableEdges map) = some bg) :
    snapToGraph map point maxSnapOpt (some pe) spOpt (some true) =
      if ((maxSnapOpt.getD (7 / 4) * (9 / 4) : ℝ) : EReal) < bc.distance ∧
          bg.distance + ((1 / 5 : ℝ) : EReal) < bc.distance then bg
      else bc := by
  simp only [snapToGraph, Option.getD_some, hbc, hbg]
  by_cases hcond : ((maxSnapOpt.getD (7 / 4) * (9 / 4) : ℝ) : EReal) < bc.distance ∧
      bg.distance + ((1 / 5 : ℝ) : EReal) < bc.distance
  · rw [if_pos hcond, if_pos hcond]
    simp only []
    rw [if_neg ?_]
    rintro ⟨h, -⟩
    exact Bool.noConfusion h
  · rw [if_neg hcond, if_neg hcond]
    simp only []
    rw [if_neg ?_]
    rintro ⟨h, -⟩
    exact Bool.noConfusion h

/-- C7 witness: on the S5 scenario (maxSnapMeters 0.5, previous edge A-B,
query point (5, 4), connected best at distance 4, global best at distance
3.6 on the disconnected parallel edge C-D) the relocalization condition
holds and the result is the global best. -/
theorem snapToGraph_hardClamp_rule_witness :
    bestOnEdges
        ⟨"m", "M", 1,
          [⟨"A", "A", 0, 0, 0, StoreMapNodeType.walkway, none⟩,
            ⟨"B", "B", 10, 0, 0, StoreMapNodeType.walkway, none⟩,
            ⟨"C", "C", 0, 2 / 5, 0, StoreMapNodeType.walkway, none⟩,
            ⟨"D", "D", 10, 2 / 5, 0, StoreMapNodeType.walkway, none⟩],
          some [⟨"A", "B", none, none⟩, ⟨"C", "D", none, none⟩], none⟩
        ⟨5, 4⟩ (some ⟨"A", "B"⟩) ((none : Option ℝ).getD (7 / 20))
        (connectedEdges
          ⟨"m", "M", 1,
            [⟨"A", "A", 0, 0, 0, StoreMapNodeType.walkway, none⟩,
              ⟨"B", "B", 10, 0, 0, StoreMapNodeType.walkway, none⟩,
              ⟨"C", "C", 0, 2 / 5, 0, StoreMapNodeType.walkway, none⟩,
              ⟨"D", "D", 10, 2 / 5, 0, StoreMapNodeType.walkway, none⟩],
            some [⟨"A", "B", none, none⟩, ⟨"C", "D", none, none⟩], none⟩
          ⟨"A", "B"⟩) =
      some ⟨⟨0 + (10 - 0) * (1 / 2), 0 + (0 - 0) * (1 / 2)⟩, ((4 : ℝ) : EReal),
        some ⟨"A", "B"⟩, 1 / 2⟩ ∧
      bestOnEdges
          ⟨"m", "M", 1,
            [⟨"A", "A", 0, 0, 0, StoreMapNodeType.walkway, none⟩,
              ⟨"B", "B", 10, 0, 0, StoreMapNodeType.walkway, none⟩,
              ⟨"C", "C", 0, 2 / 5, 0, StoreMapNodeType.walkway, none⟩,
              ⟨"D", "D", 10, 2 / 5, 0, StoreMapNodeType.walkway, none⟩],
            some [⟨"A", "B", none, none⟩, ⟨"C", "D", none, none⟩], none⟩
          ⟨5, 4⟩ (some ⟨"A", "B"⟩) ((none : Option ℝ).getD (7 / 20))
          (usableEdges
            ⟨"m", "M", 1,
              [⟨"A", "A", 0, 0, 0, StoreMapNodeType.walkway, none⟩,
                ⟨"B", "B", 10, 0, 0, StoreMapNodeType.walkway, none⟩,
                ⟨"C", "C", 0, 2 / 5, 0, StoreMapNodeType.walkway, none⟩,
                ⟨"D", "D", 10, 2 / 5, 0, StoreMapNodeType.walkway, none⟩],
              some [⟨"A", "B", none, none⟩, ⟨"C", "D", none, none⟩], none⟩) =
        some ⟨⟨0 + (10 - 0) * (1 / 2), 2 / 5 + (2 / 5 - 2 / 5) * (1 / 2)⟩,
          ((18 / 5 : ℝ) : EReal), some ⟨"C", "D"⟩, 1 / 2⟩ ∧
      snapToGraph
          ⟨"m", "M", 1,
            [⟨"A", "A", 0, 0, 0, StoreMapNodeType.walkway, none⟩,
              ⟨"B", "B", 10, 0, 0, StoreMapNodeType.walkway, none⟩,
              ⟨"C", "C", 0, 2 / 5, 0, StoreMapNodeType.walkway, none⟩,
              ⟨"D", "D", 10, 2 / 5, 0, StoreMapNodeType.walkway, none⟩],
            some [⟨"A", "B", none, none⟩, ⟨"C", "D", none, none⟩], none⟩
          ⟨5, 4⟩ (some (1 / 2)) (some ⟨"A", "B"⟩) none (some true) =
        ⟨⟨0 + (10 - 0) * (1 / 2), 2 / 5 + (2 / 5 - 2 / 5) * (1 / 2)⟩,
          ((18 / 5 : ℝ) : EReal), some ⟨"C", "D"⟩, 1 / 2⟩ := by
  have hfaA : nodeById
      ⟨"m", "M", 1,
        [⟨"A", "A", 0, 0, 0, StoreMapNodeType.walkway, none⟩,
          ⟨"B", "B", 10, 0, 0, StoreMapNodeType.walkway, none⟩,
          ⟨"C", "C", 0, 2 / 5, 0, StoreMapNodeType.walkway, none⟩,
          ⟨"D", "D", 10, 2 / 5, 0, StoreMapNodeType.walkway, none⟩],
        some [⟨"A", "B", none, none⟩, ⟨"C", "D", none, none⟩], none⟩ "A" =
      some ⟨"A", "A", 0, 0, 0, StoreMapNodeType.walkway, none⟩ := by
    simp [nodeById, List.find?]
  have hfaB : nodeById
      ⟨"m", "M", 1,
        [⟨"A", "A", 0, 0, 0, StoreMapNodeType.walkway, none⟩,
          ⟨"B", "B", 10, 0, 0, StoreMapNodeType.walkway, none⟩,
          ⟨"C", "C", 0, 2 / 5, 0, StoreMapNodeType.walkway, none⟩,
          ⟨"D", "D", 10, 2 / 5, 0, StoreMapNodeType.walkway, none⟩],
        some [⟨"A", "B", none, none⟩, ⟨"C", "D", none, none⟩], none⟩ "B" =
      some ⟨"B", "B", 10, 0, 0, StoreMapNodeType.walkway, none⟩ := by
    simp [nodeById, List.find?]
  have hfaC : nodeById
      ⟨"m", "M", 1,
        [⟨"A", "A", 0, 0, 0, StoreMapNodeType.walkway, none⟩,
          ⟨"B", "B", 10, 0, 0, StoreMapNodeType.walkway, none⟩,
          ⟨"C", "C", 0, 2 / 5, 0, StoreMapNodeType.walkway, none⟩,
          ⟨"D", "D", 10, 2 / 5, 0, StoreMapNodeType.walkway, none⟩],
        some [⟨"A", "B", none, none⟩, ⟨"C", "D", none, none⟩], none⟩ "C" =
      some ⟨"C", "C", 0, 2 / 5, 0, StoreMapNodeType.walkway, none⟩ := by
    simp [nodeById, List.find?]
  have hfaD : nodeById
      ⟨"m", "M", 1,
        [⟨"A", "A", 0, 0, 0, StoreMapNodeType.walkway, none⟩,
          ⟨"B", "B", 10, 0, 0, StoreMapNodeType.walkway, none⟩,
          ⟨"C", "C", 0, 2 / 5, 0, StoreMapNodeType.walkway, none⟩,
          ⟨"D", "D", 10, 2 / 5, 0, StoreMapNodeType.walkway, none⟩],
        some [⟨"A", "B", none, none⟩, ⟨"C", "D", none, none⟩], none⟩ "D" =
      some ⟨"D", "D", 10, 2 / 5, 0, StoreMapNodeType.walkway, none⟩ := by
    simp [nodeById, List.find?]
  have husable : usableEdges
      ⟨"m", "M", 1,
        [⟨"A", "A", 0, 0, 0, StoreMapNodeType.walkway, none⟩,
          ⟨"B", "B", 10, 0, 0, StoreMapNodeType.walkway, none⟩,
          ⟨"C", "C", 0, 2 / 5, 0, StoreMapNodeType.walkway, none⟩,
          ⟨"D", "D", 10, 2 / 5, 0, StoreMapNodeType.walkway, none⟩],
        some [⟨"A", "B", none, none⟩, ⟨"C", "D", none, none⟩], none⟩ =
      [⟨"A", "B", none, none⟩, ⟨"C", "D", none, none⟩] := by
    rw [usableEdges]
    refine List.filter_eq_self.mpr ?_
    intro e he
    simp only [Option.getD_some, List.mem_cons, List.not_mem_nil, or_false] at he
    rcases he with rfl | rfl <;> simp [isUsableEdge]
  have hconn : connectedEdges
      ⟨"m", "M", 1,
        [⟨"A", "A", 0, 0, 0, StoreMapNodeType.walkway, none⟩,
          ⟨"B", "B", 10, 0, 0, StoreMapNodeType.walkway, none⟩,
          ⟨"C", "C", 0, 2 / 5, 0, StoreMapNodeType.walkway, none⟩,
          ⟨"D", "D", 10, 2 / 5, 0, StoreMapNodeType.walkway, none⟩],
        some [⟨"A", "B", none, none⟩, ⟨"C", "D", none, none⟩], none⟩
      ⟨"A", "B"⟩ = [⟨"A", "B", none, none⟩] := by
    rw [connectedEdges, husable]
    simp
  have hprojAB : projectPointToSegment ⟨5, 4⟩ ⟨0, 0⟩ ⟨10, 0⟩ =
      ⟨1 / 2, ⟨0 + (10 - 0) * (1 / 2), 0 + (0 - 0) * (1 / 2)⟩, 4⟩ :=
    projectPointToSegment_eval _ _ _ (1 / 2) 4 (by norm_num)
      (by rw [clampR]; norm_num) (by norm_num) (by norm_num)
  have hprojCD : projectPointToSegment ⟨5, 4⟩ ⟨0, 2 / 5⟩ ⟨10, 2 / 5⟩ =
      ⟨1 / 2, ⟨0 + (10 - 0) * (1 / 2), 2 / 5 + (2 / 5 - 2 / 5) * (1 / 2)⟩, 18 / 5⟩ :=
    projectPointToSegment_eval _ _ _ (1 / 2) (18 / 5) (by norm_num)
      (by rw [clampR]; norm_num) (by norm_num) (by norm_num)
  have hpenAB : edgePenalty (some ⟨"A", "B"⟩) (7 / 20) ⟨"A", "B"⟩ = 0 := by
    simp [edgePenalty, isPrevEdge]
  have hpenCD : edgePenalty (some ⟨"A", "B"⟩) (7 / 20) ⟨"C", "D"⟩ = 7 / 20 := by
    simp [edgePenalty, isPrevEdge, isConnectedToPrevEdge]
  have hstepAB : snapStep
      ⟨"m", "M", 1,
        [⟨"A", "A", 0, 0, 0, StoreMapNodeType.walkway, none⟩,
          ⟨"B", "B", 10, 0, 0, StoreMapNodeType.walkway, none⟩,
          ⟨"C", "C", 0, 2 / 5, 0, StoreMapNodeType.walkway, none⟩,
          ⟨"D", "D", 10, 2 / 5, 0, StoreMapNodeType.walkway, none⟩],
        some [⟨"A", "B", none, none⟩, ⟨"C", "D", none, none⟩], none⟩
      ⟨5, 4⟩ (some ⟨"A", "B"⟩) (7 / 20) none ⟨"A", "B", none, none⟩ =
      some (⟨⟨0 + (10 - 0) * (1 / 2), 0 + (0 - 0) * (1 / 2)⟩, ((4 : ℝ) : EReal),
        some ⟨"A", "B"⟩, 1 / 2⟩, 4 + 0) := by
    rw [snapStep, hfaA, hfaB]
    simp only [hprojAB, hpenAB]
  have hstepCD : snapStep
      ⟨"m", "M", 1,
        [⟨"A", "A", 0, 0, 0, StoreMapNodeType.walkway, none⟩,
          ⟨"B", "B", 10, 0, 0, StoreMapNodeType.walkway, none⟩,
          ⟨"C", "C", 0, 2 / 5, 0, StoreMapNodeType.walkway, none⟩,
          ⟨"D", "D", 10, 2 / 5, 0, StoreMapNodeType.walkway, none⟩],
        some [⟨"A", "B", none, none⟩, ⟨"C", "D", none, none⟩], none⟩
      ⟨5, 4⟩ (some ⟨"A", "B"⟩) (7 / 20)
      (some (⟨⟨0 + (10 - 0) * (1 / 2), 0 + (0 - 0) * (1 / 2)⟩, ((4 : ℝ) : EReal),
        some ⟨"A", "B"⟩, 1 / 2⟩, 4 + 0)) ⟨"C", "D", none, none⟩ =
      some (⟨⟨0 + (10 - 0) * (1 / 2), 2 / 5 + (2 / 5 - 2 / 5) * (1 / 2)⟩,
        ((18 / 5 : ℝ) : EReal), some ⟨"C", "D"⟩, 1 / 2⟩, 18 / 5 + 7 / 20) := by
    rw [snapStep, hfaC, hfaD]
    simp only [hprojCD, hpenCD]
    rw [if_pos (by norm_num)]
  have hbc : bestOnEdges
      ⟨"m", "M", 1,
        [⟨"A", "A", 0, 0, 0, StoreMapNodeType.walkway, none⟩,
          ⟨"B", "B", 10, 0, 0, StoreMapNodeType.walkway, none⟩,
          ⟨"C", "C", 0, 2 / 5, 0, StoreMapNodeType.walkway, none⟩,
          ⟨"D", "D", 10, 2 / 5, 0, StoreMapNodeType.walkway, none⟩],
        some [⟨"A", "B", none, none⟩, ⟨"C", "D", none, none⟩], none⟩
      ⟨5, 4⟩ (some ⟨"A", "B"⟩) (7 / 20) [⟨"A", "B", none, none⟩] =
      some ⟨⟨0 + (10 - 0) * (1 / 2), 0 + (0 - 0) * (1 / 2)⟩, ((4 : ℝ) : EReal),
        some ⟨"A", "B"⟩, 1 / 2⟩ := by
    rw [bestOnEdges, List.foldl_cons, hstepAB, List.foldl_nil]
    rfl
  have hbg : bestOnEdges
      ⟨"m", "M", 1,
        [⟨"A", "A", 0, 0, 0, StoreMapNodeType.walkway, none⟩,
          ⟨"B", "B", 10, 0, 0, StoreMapNodeType.walkway, none⟩,
          ⟨"C", "C", 0, 2 / 5, 0, StoreMapNodeType.walkway, none⟩,
          ⟨"D", "D", 10, 2 / 5, 0, StoreMapNodeType.walkway, none⟩],
        some [⟨"A", "B", none, none⟩, ⟨"C", "D", none, none⟩], none⟩
      ⟨5, 4⟩ (some ⟨"A", "B"⟩) (7 / 20)
      [⟨"A", "B", none, none⟩, ⟨"C", "D", none, none⟩] =
      some ⟨⟨0 + (10 - 0) * (1 / 2), 2 / 5 + (2 / 5 - 2 / 5) * (1 / 2)⟩,
        ((18 / 5 : ℝ) : EReal), some ⟨"C", "D"⟩, 1 / 2⟩ := by
    rw [bestOnEdges, List.foldl_cons, hstepAB, List.foldl_cons, hstepCD,
      List.foldl_nil]
    rfl
  have hbc' := hbc
  have hbg' := hbg
  rw [← hconn] at hbc'
  rw [← husable] at hbg'
  refine ⟨hbc', hbg', ?_⟩
  rw [snapToGraph_hardClamp_rule _ _ _ _ _ _ _ hbc' hbg']
  rw [if_pos ?_]
  constructor
  · rw [EReal.coe_lt_coe_iff]
    norm_num
  · rw [← EReal.coe_add, EReal.coe_lt_coe_iff]
    norm_num

/-! ### nav/shortestPath.ts

The router builds an adjacency record over the node list augmented with a
virtual start node, runs a quadratic Dijkstra loop over a worklist of node
ids, and reconstructs the path from the predecessor record.  The source
selects the next node with let u: string | null = null and then tests
if (!u) break, which also fires when the selected node id is the empty
string, because the empty string is falsy in JavaScript. -/

/-- Source: snapToGraph.ts, nearestNodeId: the id of the node nearest to the
point among nodes whose type passes the optional filter; the best distance
starts at Infinity, modelled with WithTop. -/
def nearestNodeId (map : StoreMap) (point : Point2)
    (types : Option (List StoreMapNodeType)) : Option String :=
  (map.nodes.foldl
    (fun acc n =>
      match types with
      | some ts =>
          if n.type ∈ ts then
            (if (dist point ⟨n.x, n.y⟩ : WithTop ℝ) < acc.2 then
              (some n.id, ((dist point ⟨n.x, n.y⟩ : ℝ) : WithTop ℝ))
            else acc)
          else acc
      | none =>
          if (dist point ⟨n.x, n.y⟩ : WithTop ℝ) < acc.2 then
            (some n.id, ((dist point ⟨n.x, n.y⟩ : ℝ) : WithTop ℝ))
          else acc)
    ((none : Option String), (⊤ : WithTop ℝ))).1

/-- An adjacency arc { to, w } as stored in the Adj record of
shortestPath.ts (to is a reserved token in Lean at this position, hence
toId). -/
structure Arc where
  toId : String
  w : ℝ

/-- Lookup in a Map built from a node list by id: the last node with a
given id wins. -/
def findNode (nodes : List StoreMapNode) (id : String) : Option StoreMapNode :=
  nodes.reverse.find? (fun n => n.id = id)

/-- Source: shortestPath.ts, buildAdjacency, read off at one key u.  The
record has one key per node id; an edge contributes its forward arc, and its
backward arc unless bidirectional === false, provided both endpoints resolve
in the byId map; the weight is e.distance ?? dist(from, to).  Arcs at a key
appear in edge order, forward arc before backward arc. -/
def buildAdjacency (nodes : List StoreMapNode) (edges : List StoreMapEdge)
    (u : String) : List Arc :=
  if u ∈ nodes.map (fun n => n.id) then
    edges.flatMap (fun e =>
      match findNode nodes e.fromId, findNode nodes e.toId with
      | some a, some b =>
          (if e.fromId = u then
            [⟨e.toId, e.distance.getD (dist ⟨a.x, a.y⟩ ⟨b.x, b.y⟩)⟩] else []) ++
          (if e.bidirectional ≠ some false ∧ e.toId = u then
            [⟨e.fromId, e.distance.getD (dist ⟨a.x, a.y⟩ ⟨b.x, b.y⟩)⟩] else [])
      | _, _ => [])
  else []

/-- Source: shortestPath.ts, the selection pass of the dijkstra while-loop:
u starts as null and best as Infinity, and every id of the worklist with
distance strictly below the running best replaces it. -/
def selectMin (q : List String) (d : String → WithTop ℝ) : Option String :=
  (q.foldl
    (fun acc id => if d id < acc.2 then (some id, d id) else acc)
    ((none : Option String), (⊤ : WithTop ℝ))).1

/-- Source: shortestPath.ts, the relaxation pass over the arcs of the
selected node u: targets no longer in the worklist are skipped, and
alt = distMap[u] + w replaces a strictly larger tentative distance,
recording u as predecessor. -/
def relaxArcs (u : String) (arcs : List Arc) (q : List String)
    (st : (String → WithTop ℝ) × (String → Option String)) :
    (String → WithTop ℝ) × (String → Option String) :=
  arcs.foldl
    (fun st a =>
      if a.toId ∈ q then
        if st.1 u + (a.w : WithTop ℝ) < st.1 a.toId then
          (fun x => if x = a.toId then st.1 u + (a.w : WithTop ℝ) else st.1 x,
            fun x => if x = a.toId then some u else st.2 x)
        else st
      else st)
    st

lemma selectMin_aux_mem (d : String → WithTop ℝ) :
    ∀ (q : List String) (acc : Option String × WithTop ℝ) (u : String),
    (q.foldl (fun acc id => if d id < acc.2 then (some id, d id) else acc)
        acc).1 = some u →
    acc.1 = some u ∨ u ∈ q := by
  intro q
  induction q with
  | nil => intro acc u h; exact Or.inl h
  | cons x rest ih =>
      intro acc u h
      rw [List.foldl_cons] at h
      rcases ih _ u h with h2 | h2
      · by_cases hx : d x < acc.2
        · rw [if_pos hx] at h2
          simp only [Option.some.injEq] at h2
          exact Or.inr (by rw [← h2]; exact List.mem_cons_self _ _)
        · rw [if_neg hx] at h2
          exact Or.inl h2
      · exact Or.inr (List.mem_cons_of_mem _ h2)

lemma selectMin_mem (q : List String) (d : String → WithTop ℝ) (u : String)
    (h : selectMin q d = some u) : u ∈ q := by
  rcases selectMin_aux_mem d q (none, ⊤) u h with h2 | h2
  · exact absurd h2 (by simp)
  · exact h2

/-- Source: shortestPath.ts, the dijkstra while-loop.  One iteration selects
the id of minimal tentative distance, stops when none is selected (all
remaining distances are Infinity) and also when the selected id is the empty
string, because the source tests if (!u) break and the empty string is falsy;
otherwise it removes the id from the worklist and relaxes its arcs.  The
loop terminates because the worklist shrinks. -/
def dijkstraLoop (adj : String → List Arc) :
    List String → (String → WithTop ℝ) → (String → Option String) →
      (String → WithTop ℝ) × (String → Option String)
  | q, d, p =>
    match hsel : selectMin q d with
    | none => (d, p)
    | some u =>
        if u = "" then (d, p)
        else
          dijkstraLoop adj (q.erase u)
            (relaxArcs u (adj u) (q.erase u) (d, p)).1
            (relaxArcs u (adj u) (q.erase u) (d, p)).2
termination_by q _ _ => q.length
decreasing_by
  have hu := selectMin_mem q d u hsel
  have := List.length_erase_of_mem hu
  have hq : q ≠ [] := by rintro rfl; exact absurd hu (List.not_mem_nil u)
  have : 0 < q.length := List.length_pos.mpr hq
  omega

lemma dijkstraLoop_break (adj : String → List Arc) (q : List String)
    (d : String → WithTop ℝ) (p : String → Option String)
    (h : selectMin q d = some "") : dijkstraLoop adj q d p = (d, p) := by
  rw [dijkstraLoop]
  split
  · rfl
  · rename_i u heq
    rw [h] at heq
    simp only [Option.some.injEq] at heq
    rw [if_pos heq.symm]

lemma dijkstraLoop_step (adj : String → List Arc) (q : List String)
    (d : String → WithTop ℝ) (p : String → Option String) (u : String)
    (h : selectMin q d = some u) (hne : u ≠ "") :
    dijkstraLoop adj q d p =
      dijkstraLoop adj (q.erase u)
        (relaxArcs u (adj u) (q.erase u) (d, p)).1
        (relaxArcs u (adj u) (q.erase u) (d, p)).2 := by
  rw [dijkstraLoop]
  split
  · rename_i heq
    rw [h] at heq
    exact absurd heq (by simp)
  · rename_i v heq
    rw [h] at heq
    simp only [Option.some.injEq] at heq
    subst heq
    rw [if_neg hne]

/-- Source: shortestPath.ts, dijkstra: the tentative distance starts at 0 on
the start id and Infinity elsewhere, the predecessor record starts empty, and
the worklist holds the keys of the adjacency record. -/
def dijkstra (adj : String → List Arc) (ids : List String) (startId : String) :
    (String → WithTop ℝ) × (String → Option String) :=
  dijkstraLoop adj ids (fun id => if id = startId then (0 : WithTop ℝ) else ⊤)
    (fun _ => none)

/-- Source: shortestPath.ts, the while-loop of reconstruct, which collects
ids from endId along the predecessor record until it reaches startId or a
falsy cursor (null, or the empty string).  The source loop is syntactically
unbounded; on dijkstra output the predecessor chains are acyclic, so a fuel
larger than the worklist length is never exhausted, and the caller passes
such a fuel. -/
def reconstructAux (prev : String → Option String) (startId : String) :
    ℕ → String → List String
  | 0, _ => []
  | fuel + 1, cur =>
      if cur = "" then []
      else
        cur :: (if cur = startId then []
          else
            match prev cur with
            | none => []
            | some nxt => reconstructAux prev startId fuel nxt)

/-- Source: shortestPath.ts, reconstruct = the collected ids, reversed. -/
def reconstruct (prev : String → Option String) (startId endId : String)
    (fuel : ℕ) : List String :=
  (reconstructAux prev startId fuel endId).reverse

/-- Source: shortestPath.ts, PathResult. -/
structure PathResult where
  nodeIds : List String
  points : List Point2
  lengthMeters : ℝ

/-- Source: shortestPath.ts, the id of the virtual start node. -/
def virtualId : String := "__start__"

/-- Source: shortestPath.ts, the virtual start node placed at the snapped
point. -/
def virtualNodeOf (snapped : SnapResult) : StoreMapNode :=
  ⟨virtualId, "Start", snapped.snapped.x, snapped.snapped.y, 0,
    StoreMapNodeType.walkway, none⟩

/-- Source: shortestPath.ts, the virtual edges: when the snap reports an
edge whose endpoints both resolve, one edge to each endpoint weighted by the
distance from the virtual node; otherwise one edge to the nearest node when
it resolves. -/
def virtualEdgesOf (map : StoreMap) (startPoint : Point2)
    (snapped : SnapResult) : List StoreMapEdge :=
  match snapped.edge with
  | some se =>
      match findNode map.nodes se.fromId, findNode map.nodes se.toId with
      | some a, some b =>
          [⟨virtualId, a.id,
              some (dist ⟨snapped.snapped.x, snapped.snapped.y⟩ ⟨a.x, a.y⟩),
              some true⟩,
            ⟨virtualId, b.id,
              some (dist ⟨snapped.snapped.x, snapped.snapped.y⟩ ⟨b.x, b.y⟩),
              some true⟩]
      | _, _ => []
  | none =>
      match nearestNodeId map startPoint none with
      | some nid =>
          match findNode map.nodes nid with
          | some n =>
              [⟨virtualId, n.id,
                  some (dist ⟨snapped.snapped.x, snapped.snapped.y⟩ ⟨n.x, n.y⟩),
                  some true⟩]
          | none => []
      | none => []

/-- Source: shortestPath.ts, nodes = [...map.nodes, virtualNode]. -/
def augNodes (map : StoreMap) (snapped : SnapResult) : List StoreMapNode :=
  map.nodes ++ [virtualNodeOf snapped]

/-- Source: shortestPath.ts, edges = [...baseEdges, ...virtualEdges] with
baseEdges = map.edges ?? []. -/
def augEdges (map : StoreMap) (startPoint : Point2) (snapped : SnapResult) :
    List StoreMapEdge :=
  map.edges.getD [] ++ virtualEdgesOf map startPoint snapped

/-- The keys of the adjacency record, in insertion order: the node ids of
the augmented node list without duplicates. -/
def augIds (map : StoreMap) (snapped : SnapResult) : List String :=
  ((augNodes map snapped).map (fun n => n.id)).dedup

/-- Source: shortestPath.ts, the points of the result path: the virtual id
maps to the snapped point, any other id to the coordinates of its node, with
0 as fallback. -/
def pathPoints (map : StoreMap) (snapped : SnapResult)
    (nodeIds : List String) : List Point2 :=
  nodeIds.map (fun id =>
    if id = virtualId then ⟨snapped.snapped.x, snapped.snapped.y⟩
    else
      match findNode map.nodes id with
      | some n => ⟨n.x, n.y⟩
      | none => ⟨0, 0⟩)

/-- Source: shortestPath.ts, lengthMeters: the sum of distances between
consecutive path points. -/
def pathLength (points : List Point2) : ℝ :=
  (points.zip points.tail).foldl (fun acc pq => acc + dist pq.1 pq.2) 0

/-- The node ids of the reconstructed path. -/
def spfpNodeIds (map : StoreMap) (startPoint : Point2) (endNodeId : String)
    (snapped : SnapResult) : List String :=
  reconstruct
    (dijkstra
      (buildAdjacency (augNodes map snapped) (augEdges map startPoint snapped))
      (augIds map snapped) virtualId).2
    virtualId endNodeId ((augIds map snapped).length + 2)

open scoped Classical in
/-- Source: shortestPath.ts, shortestPathFromPoint after the snap: null when
the dijkstra distance of the destination is not finite, otherwise the
reconstructed path with its points and length. -/
def spfpAfterSnap (map : StoreMap) (startPoint : Point2) (endNodeId : String)
    (snapped : SnapResult) : Option PathResult :=
  if (dijkstra
        (buildAdjacency (augNodes map snapped)
          (augEdges map startPoint snapped))
        (augIds map snapped) virtualId).1 endNodeId = ⊤ then
    none
  else
    some ⟨spfpNodeIds map startPoint endNodeId snapped,
      pathPoints map snapped (spfpNodeIds map startPoint endNodeId snapped),
      pathLength
        (pathPoints map snapped (spfpNodeIds map startPoint endNodeId snapped))⟩

/-- Source: shortestPath.ts, shortestPathFromPoint: null when no node has
the destination id, otherwise the pipeline on the snap of the start point
with maxSnapMeters 3.0. -/
def shortestPathFromPoint (map : StoreMap) (startPoint : Point2)
    (endNodeId : String) : Option PathResult :=
  if (map.nodes.find? (fun n => n.id = endNodeId)).isSome = true then
    spfpAfterSnap map startPoint endNodeId
      (snapToGraph map startPoint (some 3) none none none)
  else none

/-- Reachability along the adjacency record: the reflexive-transitive
closure of the arc relation. -/
inductive Reach (adj : String → List Arc) : String → String → Prop
  | refl (u : String) : Reach adj u u
  | tail {u v w : String} : Reach adj u v → (∃ a ∈ adj v, a.toId = w) →
      Reach adj u w

/-- A map whose middle corridor node has the empty string as id: three
collinear nodes A (0,0), Mid (10,0) with id the empty string, D (20,0),
and the two corridor edges A-Mid and Mid-D of length 10. -/
def emptyIdMap : StoreMap :=
  ⟨"m", "Empty-id map", 1,
    [⟨"A", "A", 0, 0, 0, StoreMapNodeType.walkway, none⟩,
      ⟨"", "Mid", 10, 0, 0, StoreMapNodeType.walkway, none⟩,
      ⟨"D", "D", 20, 0, 0, StoreMapNodeType.walkway, none⟩],
    some [⟨"A", "", some 10, none⟩, ⟨"", "D", some 10, none⟩], none⟩

/-- C8: the claimed None-iff-unknown-or-unreachable contract fails.  On
emptyIdMap with start point (0,0) and destination D, the code returns none
although D is a node of the map and D is reachable from the virtual start
node in the adjacency the code itself builds (the snap puts the start on
edge A-Mid): the Dijkstra loop selects the corridor node whose id is the
empty string, the falsy test if (!u) break mistakes it for null and aborts,
leaving the distance of D at Infinity. -/
theorem shortestPathFromPoint_falsy_break_bug :
    shortestPathFromPoint emptyIdMap ⟨0, 0⟩ "D" = none ∧
      (∃ n ∈ emptyIdMap.nodes, n.id = "D") ∧
      (snapToGraph emptyIdMap ⟨0, 0⟩ (some 3) none none none).edge =
        some ⟨"A", ""⟩ ∧
      Reach
        (buildAdjacency
          (augNodes emptyIdMap (snapToGraph emptyIdMap ⟨0, 0⟩ (some 3) none none none))
          (augEdges emptyIdMap ⟨0, 0⟩
            (snapToGraph emptyIdMap ⟨0, 0⟩ (some 3) none none none)))
        virtualId "D" := by
  have hfA : nodeById emptyIdMap "A" =
      some ⟨"A", "A", 0, 0, 0, StoreMapNodeType.walkway, none⟩ := by
    simp [nodeById, emptyIdMap, List.find?]
  have hfM : nodeById emptyIdMap "" =
      some ⟨"", "Mid", 10, 0, 0, StoreMapNodeType.walkway, none⟩ := by
    simp [nodeById, emptyIdMap, List.find?]
  have hfD : nodeById emptyIdMap "D" =
      some ⟨"D", "D", 20, 0, 0, StoreMapNodeType.walkway, none⟩ := by
    simp [nodeById, emptyIdMap, List.find?]
  have husable : usableEdges emptyIdMap =
      [⟨"A", "", some 10, none⟩, ⟨"", "D", some 10, none⟩] := by
    rw [usableEdges]
    refine List.filter_eq_self.mpr ?_
    intro e he
    simp only [emptyIdMap, Option.getD_some, List.mem_cons, List.not_mem_nil,
      or_false] at he
    rcases he with rfl | rfl <;> simp [isUsableEdge]
  have hproj1 : projectPointToSegment ⟨0, 0⟩ ⟨0, 0⟩ ⟨10, 0⟩ =
      ⟨0, ⟨0 + (10 - 0) * 0, 0 + (0 - 0) * 0⟩, 0⟩ :=
    projectPointToSegment_eval _ _ _ 0 0 (by norm_num)
      (by rw [clampR]; norm_num) (by norm_num) (by norm_num)
  have hproj2 : projectPointToSegment ⟨0, 0⟩ ⟨10, 0⟩ ⟨20, 0⟩ =
      ⟨0, ⟨10 + (20 - 10) * 0, 0 + (0 - 0) * 0⟩, 10⟩ :=
    projectPointToSegment_eval _ _ _ 0 10 (by norm_num)
      (by rw [clampR]; norm_num) (by norm_num) (by norm_num)
  have hstep1 : snapStep emptyIdMap ⟨0, 0⟩ none (7 / 20) none
      ⟨"A", "", some 10, none⟩ =
      some (⟨⟨0 + (10 - 0) * 0, 0 + (0 - 0) * 0⟩, ((0 : ℝ) : EReal),
        some ⟨"A", ""⟩, 0⟩, 0 + 7 / 20) := by
    rw [snapStep, hfA, hfM]
    simp only [hproj1, edgePenalty_none]
  have hstep2 : snapStep emptyIdMap ⟨0, 0⟩ none (7 / 20)
      (some (⟨⟨0 + (10 - 0) * 0, 0 + (0 - 0) * 0⟩, ((0 : ℝ) : EReal),
        some ⟨"A", ""⟩, 0⟩, 0 + 7 / 20))
      ⟨"", "D", some 10, none⟩ =
      some (⟨⟨0 + (10 - 0) * 0, 0 + (0 - 0) * 0⟩, ((0 : ℝ) : EReal),
        some ⟨"A", ""⟩, 0⟩, 0 + 7 / 20) := by
    rw [snapStep, hfM, hfD]
    simp only [hproj2, edgePenalty_none]
    rw [if_neg (by norm_num)]
  have hbest : bestOnEdges emptyIdMap ⟨0, 0⟩ none (7 / 20)
      (usableEdges emptyIdMap) =
      some ⟨⟨0 + (10 - 0) * 0, 0 + (0 - 0) * 0⟩, ((0 : ℝ) : EReal),
        some ⟨"A", ""⟩, 0⟩ := by
    rw [bestOnEdges, husable, List.foldl_cons, hstep1, List.foldl_cons, hstep2,
      List.foldl_nil]
    rfl
  have hsnap : snapToGraph emptyIdMap ⟨0, 0⟩ (some 3) none none none =
      ⟨⟨0, 0⟩, ((0 : ℝ) : EReal), some ⟨"A", ""⟩, 0⟩ := by
    simp only [snapToGraph, Option.getD_none, Option.getD_some, hbest]
    rw [if_neg ?_]
    · norm_num
    · rintro ⟨-, h⟩
      rw [EReal.coe_lt_coe_iff] at h
      norm_num at h
  have haugN : augNodes emptyIdMap
      ⟨⟨0, 0⟩, ((0 : ℝ) : EReal), some ⟨"A", ""⟩, 0⟩ =
      [⟨"A", "A", 0, 0, 0, StoreMapNodeType.walkway, none⟩,
        ⟨"", "Mid", 10, 0, 0, StoreMapNodeType.walkway, none⟩,
        ⟨"D", "D", 20, 0, 0, StoreMapNodeType.walkway, none⟩,
        ⟨"__start__", "Start", 0, 0, 0, StoreMapNodeType.walkway, none⟩] := rfl
  have hd0 : dist ⟨0, 0⟩ ⟨0, 0⟩ = 0 := by
    rw [dist]; norm_num
  have hd10 : dist ⟨0, 0⟩ ⟨10, 0⟩ = 10 := by
    rw [dist]
    rw [show ((0 : ℝ) - 10) ^ 2 + ((0 : ℝ) - 0) ^ 2 = 10 ^ 2 by norm_num]
    exact Real.sqrt_sq (by norm_num)
  have haugE : augEdges emptyIdMap ⟨0, 0⟩
      ⟨⟨0, 0⟩, ((0 : ℝ) : EReal), some ⟨"A", ""⟩, 0⟩ =
      [⟨"A", "", some 10, none⟩, ⟨"", "D", some 10, none⟩,
        ⟨"__start__", "A", some 0, some true⟩,
        ⟨"__start__", "", some 10, some true⟩] := by
    simp [augEdges, virtualEdgesOf, emptyIdMap, findNode, List.find?, virtualId,
      hd0, hd10]
  have hids : augIds emptyIdMap
      ⟨⟨0, 0⟩, ((0 : ℝ) : EReal), some ⟨"A", ""⟩, 0⟩ =
      ["A", "", "D", "__start__"] := by
    rw [augIds, haugN]
    rw [show ([⟨"A", "A", 0, 0, 0, StoreMapNodeType.walkway, none⟩,
        ⟨"", "Mid", 10, 0, 0, StoreMapNodeType.walkway, none⟩,
        ⟨"D", "D", 20, 0, 0, StoreMapNodeType.walkway, none⟩,
        ⟨"__start__", "Start", 0, 0, 0, StoreMapNodeType.walkway, none⟩] :
        List StoreMapNode).map (fun n => n.id) =
      ["A", "", "D", "__start__"] from rfl]
    exact List.dedup_eq_self.mpr (by decide)
  have hadjS : buildAdjacency
      [⟨"A", "A", 0, 0, 0, StoreMapNodeType.walkway, none⟩,
        ⟨"", "Mid", 10, 0, 0, StoreMapNodeType.walkway, none⟩,
        ⟨"D", "D", 20, 0, 0, StoreMapNodeType.walkway, none⟩,
        ⟨"__start__", "Start", 0, 0, 0, StoreMapNodeType.walkway, none⟩]
      [⟨"A", "", some 10, none⟩, ⟨"", "D", some 10, none⟩,
        ⟨"__start__", "A", some 0, some true⟩,
        ⟨"__start__", "", some 10, some true⟩] "__start__" =
      [⟨"A", 0⟩, ⟨"", 10⟩] := by
    simp [buildAdjacency, findNode, List.find?]
  have hadjA : buildAdjacency
      [⟨"A", "A", 0, 0, 0, StoreMapNodeType.walkway, none⟩,
        ⟨"", "Mid", 10, 0, 0, StoreMapNodeType.walkway, none⟩,
        ⟨"D", "D", 20, 0, 0, StoreMapNodeType.walkway, none⟩,
        ⟨"__start__", "Start", 0, 0, 0, StoreMapNodeType.walkway, none⟩]
      [⟨"A", "", some 10, none⟩, ⟨"", "D", some 10, none⟩,
        ⟨"__start__", "A", some 0, some true⟩,
        ⟨"__start__", "", some 10, some true⟩] "A" =
      [⟨"", 10⟩, ⟨"__start__", 0⟩] := by
    simp [buildAdjacency, findNode, List.find?]
  have hadjM : buildAdjacency
      [⟨"A", "A", 0, 0, 0, StoreMapNodeType.walkway, none⟩,
        ⟨"", "Mid", 10, 0, 0, StoreMapNodeType.walkway, none⟩,
        ⟨"D", "D", 20, 0, 0, StoreMapNodeType.walkway, none⟩,
        ⟨"__start__", "Start", 0, 0, 0, StoreMapNodeType.walkway, none⟩]
      [⟨"A", "", some 10, none⟩, ⟨"", "D", some 10, none⟩,
        ⟨"__start__", "A", some 0, some true⟩,
        ⟨"__start__", "", some 10, some true⟩] "" =
      [⟨"A", 10⟩, ⟨"D", 10⟩, ⟨"__start__", 10⟩] := by
    simp [buildAdjacency, findNode, List.find?]
  have hdijFull : (dijkstra
      (buildAdjacency
        (augNodes emptyIdMap ⟨⟨0, 0⟩, ((0 : ℝ) : EReal), some ⟨"A", ""⟩, 0⟩)
        (augEdges emptyIdMap ⟨0, 0⟩
          ⟨⟨0, 0⟩, ((0 : ℝ) : EReal), some ⟨"A", ""⟩, 0⟩))
      (augIds emptyIdMap ⟨⟨0, 0⟩, ((0 : ℝ) : EReal), some ⟨"A", ""⟩, 0⟩)
      virtualId).1 "D" = ⊤ := by
    rw [haugN, haugE, hids, show virtualId = "__start__" from rfl]
    rw [dijkstra]
    rw [dijkstraLoop_step _ _ _ _ "__start__" (by simp [selectMin]) (by decide)]
    rw [show ["A", "", "D", "__start__"].erase "__start__" = ["A", "", "D"] from by
      simp [List.erase_cons]]
    rw [hadjS]
    rw [dijkstraLoop_step _ _ _ _ "A"
      (by
        simp [selectMin, relaxArcs, WithTop.lt_top_iff_ne_top,
          show ¬(10 : WithTop ℝ) < 0 from by
            rw [← WithTop.coe_ofNat, ← WithTop.coe_zero, WithTop.coe_lt_coe]
            norm_num])
      (by decide)]
    rw [show ["A", "", "D"].erase "A" = ["", "D"] from by simp [List.erase_cons]]
    rw [hadjA]
    rw [dijkstraLoop_break _ _ _ _
      (by
        simp [selectMin, relaxArcs, WithTop.lt_top_iff_ne_top,
          show ¬(10 : WithTop ℝ) < 0 from by
            rw [← WithTop.coe_ofNat, ← WithTop.coe_zero, WithTop.coe_lt_coe]
            norm_num])]
    simp [relaxArcs, WithTop.lt_top_iff_ne_top,
      show ¬(10 : WithTop ℝ) < 0 from by
        rw [← WithTop.coe_ofNat, ← WithTop.coe_zero, WithTop.coe_lt_coe]
        norm_num]
  have hfindT : (emptyIdMap.nodes.find? (fun n => n.id = "D")).isSome = true := by
    simp [emptyIdMap, List.find?]
  refine ⟨?_,
    ⟨⟨"D", "D", 20, 0, 0, StoreMapNodeType.walkway, none⟩,
      by simp [emptyIdMap], rfl⟩,
    by rw [hsnap], ?_⟩
  · rw [shortestPathFromPoint, if_pos hfindT, hsnap, spfpAfterSnap,
      if_pos hdijFull]
  · rw [hsnap, haugN, haugE, show virtualId = "__start__" from rfl]
    exact @Reach.tail _ _ "" "D"
      (@Reach.tail _ _ "__start__" "" (Reach.refl _)
        ⟨⟨"", 10⟩, by rw [hadjS]; simp, rfl⟩)
      ⟨⟨"D", 10⟩, by rw [hadjM]; simp, rfl⟩

end

end Konzep
